import Mathlib

/-!
Shallow embedding of the survival-game simulation core
(domain entities Stats, Position, Character, Item, Inventory, Resource and
the CraftItem / GatherResource use cases), translated from the TypeScript
source.  TS `number` is modelled as `ℚ`; code that `throw`s is modelled
with `Except String`; `Math.random()` draws are supplied explicitly as
oracle arguments in `[0,1)`.
-/

/-- Immutable value object representing survival statistics
(src/domain/value-objects/Stats.ts). -/
structure Stats where
  health : ℚ
  maxHealth : ℚ
  hunger : ℚ
  maxHunger : ℚ
  thirst : ℚ
  maxThirst : ℚ
  temperature : ℚ
  stamina : ℚ
  maxStamina : ℚ
deriving DecidableEq, Repr

namespace Stats

/-- The condition checked by the private constructor (`validateStats`):
each guarded pair satisfies `0 ≤ value ≤ max`. -/
def Valid (s : Stats) : Prop :=
  (0 ≤ s.health ∧ s.health ≤ s.maxHealth) ∧
  (0 ≤ s.hunger ∧ s.hunger ≤ s.maxHunger) ∧
  (0 ≤ s.thirst ∧ s.thirst ≤ s.maxThirst) ∧
  (0 ≤ s.stamina ∧ s.stamina ≤ s.maxStamina)

instance (s : Stats) : Decidable s.Valid := by unfold Valid; infer_instance

/-- `Stats.create`: the constructor validates and throws on a value outside
`[0, max]`. -/
def create (health maxHealth hunger maxHunger thirst maxThirst
    temperature stamina maxStamina : ℚ) : Except String Stats :=
  let s : Stats := ⟨health, maxHealth, hunger, maxHunger, thirst, maxThirst,
    temperature, stamina, maxStamina⟩
  if s.Valid then .ok s else .error "stats out of range"

/-- `withHealth`: clamp the new health into `[0, maxHealth]`. -/
def withHealth (s : Stats) (health : ℚ) : Stats :=
  { s with health := max 0 (min health s.maxHealth) }

/-- `withHunger`: clamp the new hunger into `[0, maxHunger]`. -/
def withHunger (s : Stats) (hunger : ℚ) : Stats :=
  { s with hunger := max 0 (min hunger s.maxHunger) }

/-- `withThirst`: clamp the new thirst into `[0, maxThirst]`. -/
def withThirst (s : Stats) (thirst : ℚ) : Stats :=
  { s with thirst := max 0 (min thirst s.maxThirst) }

/-- `withTemperature`: temperature is unbounded. -/
def withTemperature (s : Stats) (temperature : ℚ) : Stats :=
  { s with temperature := temperature }

/-- `withStamina`: clamp the new stamina into `[0, maxStamina]`. -/
def withStamina (s : Stats) (stamina : ℚ) : Stats :=
  { s with stamina := max 0 (min stamina s.maxStamina) }

/-- `isAlive()`: health strictly positive. -/
def isAliveB (s : Stats) : Bool := 0 < s.health

/-- `isStarving()`. -/
def isStarvingB (s : Stats) : Bool := s.hunger ≤ 20

/-- `isDehydrated()`. -/
def isDehydratedB (s : Stats) : Bool := s.thirst ≤ 20

/-- `isCriticallyHot()` (temperature-critical check). -/
def isCriticallyHotB (s : Stats) : Bool := s.temperature < 35 ∨ 40 < s.temperature

end Stats

/-- Immutable 3D position (src/domain/value-objects/Position.ts). -/
structure Position where
  x : ℚ
  y : ℚ
  z : ℚ
deriving DecidableEq, Repr

namespace Position

def create (x y z : ℚ) : Position := ⟨x, y, z⟩

def zero : Position := ⟨0, 0, 0⟩

end Position

/-- Character entity (src/domain/entities/Character.ts).  The character
class tag is kept as its string value. -/
structure Character where
  id : String
  characterClass : String
  name : String
  stats : Stats
  position : Position
  isAlive : Bool
deriving DecidableEq, Repr

namespace Character

/-- `Character.create`: `_isAlive` starts at its default `true`. -/
def create (id characterClass name : String) (stats : Stats)
    (position : Position) : Character :=
  ⟨id, characterClass, name, stats, position, true⟩

/-- `updateStats`: replace the stats and re-derive the alive flag. -/
def updateStats (c : Character) (newStats : Stats) : Character :=
  { c with stats := newStats, isAlive := newStats.isAliveB }

/-- `moveTo`. -/
def moveTo (c : Character) (newPosition : Position) : Character :=
  { c with position := newPosition }

/-- `takeDamage(amount)`. -/
def takeDamage (c : Character) (amount : ℚ) : Character :=
  c.updateStats (c.stats.withHealth (c.stats.health - amount))

/-- `heal(amount)`. -/
def heal (c : Character) (amount : ℚ) : Character :=
  c.updateStats (c.stats.withHealth (c.stats.health + amount))

/-- `eat(amount)`. -/
def eat (c : Character) (amount : ℚ) : Character :=
  c.updateStats (c.stats.withHunger (c.stats.hunger + amount))

/-- `drink(amount)`. -/
def drink (c : Character) (amount : ℚ) : Character :=
  c.updateStats (c.stats.withThirst (c.stats.thirst + amount))

/-- `updateTemperature(newTemp)`. -/
def updateTemperature (c : Character) (newTemp : ℚ) : Character :=
  c.updateStats (c.stats.withTemperature newTemp)

/-- `useStamina(amount)`. -/
def useStamina (c : Character) (amount : ℚ) : Character :=
  c.updateStats (c.stats.withStamina (c.stats.stamina - amount))

/-- `regenStamina(amount)`. -/
def regenStamina (c : Character) (amount : ℚ) : Character :=
  c.updateStats (c.stats.withStamina (c.stats.stamina + amount))

/-- `canUseStamina(amount)`: pure guard, no mutation. -/
def canUseStamina (c : Character) (amount : ℚ) : Bool :=
  amount ≤ c.stats.stamina

end Character

/-- Item types (src/domain/entities/Item.ts). -/
inductive ItemType where
  | tool | weapon | food | material | clothing | consumable
deriving DecidableEq, Repr

/-- Item rarity levels. -/
inductive ItemRarity where
  | common | uncommon | rare | epic
deriving DecidableEq, Repr

/-- Consumable-effect bundle (`IItemEffect`); every field is optional. -/
structure ItemEffect where
  healthRestore : Option ℚ := none
  hungerRestore : Option ℚ := none
  thirstRestore : Option ℚ := none
  temperatureChange : Option ℚ := none
  staminaRestore : Option ℚ := none
deriving DecidableEq, Repr

/-- Item entity.  The `craftingMaterials` JS `Map` is modelled as an
association list in insertion order. -/
structure Item where
  id : String
  name : String
  description : String
  type : ItemType
  rarity : ItemRarity
  maxStack : ℚ
  weight : ℚ
  modelPath : String
  iconPath : String
  isConsumable : Bool
  effects : Option ItemEffect
  craftingMaterials : Option (List (String × ℚ))
  quantity : ℚ
deriving DecidableEq, Repr

namespace Item

/-- `Item.create` / the private constructor: throws when the quantity lies
outside `[0, maxStack]`.  Callers resolve the TS parameter defaults
(`rarity ?? COMMON`, `maxStack ?? 1`, `weight ?? 1`, paths `?? ''`,
`isConsumable ?? false`, `effects/craftingMaterials ?? null`,
`quantity ?? 1`) before this point. -/
def create (id name description : String) (type : ItemType)
    (rarity : ItemRarity) (maxStack weight : ℚ)
    (modelPath iconPath : String) (isConsumable : Bool)
    (effects : Option ItemEffect)
    (craftingMaterials : Option (List (String × ℚ)))
    (quantity : ℚ) : Except String Item :=
  if quantity < 0 ∨ maxStack < quantity then
    .error "Invalid quantity"
  else
    .ok ⟨id, name, description, type, rarity, maxStack, weight, modelPath,
      iconPath, isConsumable, effects, craftingMaterials, quantity⟩

/-- `isStackable()`. -/
def isStackable (i : Item) : Bool := 1 < i.maxStack

/-- `isStackFull()`. -/
def isStackFull (i : Item) : Bool := i.maxStack ≤ i.quantity

/-- `addToStack(amount)`: clamp above at `maxStack`. -/
def addToStack (i : Item) (amount : ℚ) : Item :=
  { i with quantity := min (i.quantity + amount) i.maxStack }

/-- `removeFromStack(amount)`: clamp below at `0`. -/
def removeFromStack (i : Item) (amount : ℚ) : Item :=
  { i with quantity := max (i.quantity - amount) 0 }

/-- `canStackWith(other)`: identity, name and type match, the receiver is
stackable and the receiver is not already full. -/
def canStackWith (i other : Item) : Bool :=
  i.id == other.id && i.name == other.name &&
    decide (i.type = other.type) && i.isStackable && !i.isStackFull

/-- `getTotalWeight()`. -/
def getTotalWeight (i : Item) : ℚ := i.weight * i.quantity

/-- Serialized form of an item (`Item.toJSON` output): every field is
written; `craftingMaterials` is an entry array or null. -/
structure Json where
  id : String
  name : String
  description : String
  type : ItemType
  rarity : ItemRarity
  maxStack : ℚ
  weight : ℚ
  modelPath : String
  iconPath : String
  isConsumable : Bool
  effects : Option ItemEffect
  craftingMaterials : Option (List (String × ℚ))
  quantity : ℚ
deriving DecidableEq, Repr

/-- `toJSON()`. -/
def toJSON (i : Item) : Json :=
  ⟨i.id, i.name, i.description, i.type, i.rarity, i.maxStack, i.weight,
    i.modelPath, i.iconPath, i.isConsumable, i.effects, i.craftingMaterials,
    i.quantity⟩

/-- `fromJSON(data)`: rebuild the materials map and call `create` (whose
quantity guard may throw). -/
def fromJSON (j : Json) : Except String Item :=
  create j.id j.name j.description j.type j.rarity j.maxStack j.weight
    j.modelPath j.iconPath j.isConsumable j.effects j.craftingMaterials
    j.quantity

/-- The quantity bound the constructor guard enforces. -/
def QuantityValid (i : Item) : Prop := 0 ≤ i.quantity ∧ i.quantity ≤ i.maxStack

instance (i : Item) : Decidable i.QuantityValid := by
  unfold QuantityValid; infer_instance

end Item

/-- Inventory entity (src/domain/entities/Inventory.ts).  The slot `Map`
(keys `0 … maxSlots−1` in insertion order) is modelled as a list whose
`i`-th entry is slot `i`. -/
structure Inventory where
  id : String
  maxSlots : ℕ
  maxWeight : ℚ
  slots : List (Option Item)
deriving DecidableEq, Repr

namespace Inventory

/-- JS `Map.get` over an association list of slot entries. -/
def mapGet {α : Type} (entries : List (ℕ × α)) (i : ℕ) : Option α :=
  (entries.find? fun p => p.1 == i).map (·.2)

/-- The private constructor: fill slots `0 … maxSlots−1` from the initial
item map, defaulting to `null`. -/
def mkFromMap (id : String) (maxSlots : ℕ) (maxWeight : ℚ)
    (initialItems : List (ℕ × Item)) : Inventory :=
  ⟨id, maxSlots, maxWeight,
    (List.range maxSlots).map fun i => mapGet initialItems i⟩

/-- `Inventory.create`: all slots start empty. -/
def create (id : String) (maxSlots : ℕ) (maxWeight : ℚ) : Inventory :=
  ⟨id, maxSlots, maxWeight, List.replicate maxSlots none⟩

/-- `getAllItems()`: the occupied slots' items. -/
def getAllItems (inv : Inventory) : List Item := inv.slots.filterMap fun o => o

/-- `getAllSlots()`: every slot with its index. -/
def getAllSlots (inv : Inventory) : List (ℕ × Option Item) := inv.slots.enum

/-- `getCurrentWeight()`. -/
def getCurrentWeight (inv : Inventory) : ℚ :=
  (inv.getAllItems.map Item.getTotalWeight).sum

/-- `findStackableSlot(item)`: first slot whose item can stack with the
incoming one. -/
def findStackableSlot (inv : Inventory) (item : Item) : Option ℕ :=
  inv.slots.findIdx? fun o =>
    match o with
    | some existing => existing.canStackWith item
    | none => false

/-- `getEmptySlotIndex()`. -/
def getEmptySlotIndex (inv : Inventory) : Option ℕ :=
  inv.slots.findIdx? fun o => o.isNone

/-- `hasSpaceFor(item)`: an existing compatible stack is enough; otherwise
an empty slot must exist and the weight ceiling must not be exceeded. -/
def hasSpaceFor (inv : Inventory) (item : Item) : Bool :=
  if (inv.findStackableSlot item).isSome then true
  else if inv.getEmptySlotIndex.isSome then
    decide (inv.getCurrentWeight + item.getTotalWeight ≤ inv.maxWeight)
  else false

/-- The tail of `addItem`: place into the first empty slot, if any. -/
def placeInEmpty (inv : Inventory) (item : Item) :
    Inventory × Bool × Option Item :=
  match inv.getEmptySlotIndex with
  | some j => ({ inv with slots := inv.slots.set j (some item) }, true, none)
  | none => (inv, false, some item)

/-- `addItem(item)` body, with explicit recursion fuel (the source
self-recurses on the remainder after completing a stack; each such call
fills one stack, so `slots.length + 1` fuel is always enough). -/
def addItemGo : ℕ → Inventory → Item → Inventory × Bool × Option Item
  | 0, inv, item => (inv, false, some item)
  | fuel + 1, inv, item =>
    if inv.hasSpaceFor item then
      match inv.findStackableSlot item with
      | some i =>
        match inv.slots.getD i none with
        | some existing =>
          if existing.canStackWith item then
            let spaceInStack := existing.maxStack - existing.quantity
            let amountToAdd := min item.quantity spaceInStack
            let inv2 := { inv with
              slots := inv.slots.set i (some (existing.addToStack amountToAdd)) }
            if 0 < item.quantity - amountToAdd then
              addItemGo fuel inv2 (item.removeFromStack amountToAdd)
            else (inv2, true, none)
          else inv.placeInEmpty item
        | none => inv.placeInEmpty item
      | none => inv.placeInEmpty item
    else (inv, false, some item)

/-- `addItem(item)`: returns the updated inventory, the success flag and
the still-unplaced remainder. -/
def addItem (inv : Inventory) (item : Item) :
    Inventory × Bool × Option Item :=
  addItemGo (inv.slots.length + 1) inv item

/-- `removeItemAt(slotIndex, amount)`: `getItemAt` throws on an invalid
index; removing at least the whole stack clears the slot and returns the
item; otherwise a freshly minted item with a derived id carries the
removed amount. -/
def removeItemAt (inv : Inventory) (slotIndex : ℕ) (amount : ℚ) :
    Except String (Inventory × Option Item) :=
  if slotIndex < inv.maxSlots then
    match inv.slots.getD slotIndex none with
    | none => .ok (inv, none)
    | some item =>
      if item.quantity ≤ amount then
        .ok ({ inv with slots := inv.slots.set slotIndex none }, some item)
      else do
        let removed ← Item.create (item.id ++ "_removed") item.name
          item.description item.type item.rarity item.maxStack item.weight
          item.modelPath item.iconPath item.isConsumable item.effects
          item.craftingMaterials amount
        .ok ({ inv with
          slots := inv.slots.set slotIndex (some (item.removeFromStack amount)) },
          some removed)
  else .error "Invalid slot index"

/-- `moveItem(fromSlot, toSlot)`: plain relocation into an empty slot,
merge into a stack-compatible target (excess stays in the source slot),
otherwise swap. -/
def moveItem (inv : Inventory) (fromSlot toSlot : ℕ) :
    Except String (Inventory × Bool) :=
  if fromSlot < inv.maxSlots ∧ toSlot < inv.maxSlots then
    match inv.slots.getD fromSlot none with
    | none => .ok (inv, false)
    | some fromItem =>
      match inv.slots.getD toSlot none with
      | none =>
        .ok ({ inv with
          slots := (inv.slots.set toSlot (some fromItem)).set fromSlot none },
          true)
      | some toItem =>
        if fromItem.canStackWith toItem then
          let spaceInStack := toItem.maxStack - toItem.quantity
          let amountToMove := min fromItem.quantity spaceInStack
          let toItem2 := toItem.addToStack amountToMove
          let fromItem2 := fromItem.removeFromStack amountToMove
          .ok ({ inv with
            slots := (inv.slots.set toSlot (some toItem2)).set fromSlot
              (if fromItem2.quantity = 0 then none else some fromItem2) },
            true)
        else
          .ok ({ inv with
            slots := (inv.slots.set fromSlot (some toItem)).set toSlot
              (some fromItem) }, true)
  else .error "Invalid slot index"

/-- `countItem(itemId)`. -/
def countItem (inv : Inventory) (itemId : String) : ℚ :=
  ((inv.getAllItems.filter fun it => it.id == itemId).map (·.quantity)).sum

/-- `hasItem(itemId, minQuantity)`. -/
def hasItem (inv : Inventory) (itemId : String) (minQuantity : ℚ) : Bool :=
  minQuantity ≤ inv.countItem itemId

/-- Serialized inventory: empty slots are omitted. -/
structure Json where
  id : String
  maxSlots : ℕ
  maxWeight : ℚ
  items : List (ℕ × Item.Json)
deriving DecidableEq, Repr

/-- `toJSON()`. -/
def toJSON (inv : Inventory) : Json :=
  ⟨inv.id, inv.maxSlots, inv.maxWeight,
    inv.slots.enum.filterMap fun p => p.2.map fun it => (p.1, it.toJSON)⟩

/-- `fromJSON(data)`: deserialize every stored item (each may throw) and
rebuild the slot table through the constructor. -/
def fromJSON (j : Json) : Except String Inventory := do
  let entries ← j.items.mapM fun p => do
    let it ← Item.fromJSON p.2
    pure (p.1, it)
  pure (mkFromMap j.id j.maxSlots j.maxWeight entries)

end Inventory

namespace Character

/-- Serialized stats record; `fromJSON` tolerates absent fields via
defaults, so each field is optional. -/
structure StatsJson where
  health : Option ℚ
  maxHealth : Option ℚ
  hunger : Option ℚ
  maxHunger : Option ℚ
  thirst : Option ℚ
  maxThirst : Option ℚ
  temperature : Option ℚ
  stamina : Option ℚ
  maxStamina : Option ℚ
deriving DecidableEq, Repr

/-- Serialized position record. -/
structure PositionJson where
  x : Option ℚ
  y : Option ℚ
  z : Option ℚ
deriving DecidableEq, Repr

/-- Serialized character (`Character.toJSON` output shape; `isAlive` is
optional because `fromJSON` defaults it to `true` when absent). -/
structure Json where
  id : String
  characterClass : String
  name : String
  stats : StatsJson
  position : PositionJson
  isAlive : Option Bool
deriving DecidableEq, Repr

/-- `toJSON()`: every field is written. -/
def toJSON (c : Character) : Json :=
  { id := c.id
    characterClass := c.characterClass
    name := c.name
    stats :=
      ⟨some c.stats.health, some c.stats.maxHealth, some c.stats.hunger,
        some c.stats.maxHunger, some c.stats.thirst, some c.stats.maxThirst,
        some c.stats.temperature, some c.stats.stamina, some c.stats.maxStamina⟩
    position := ⟨some c.position.x, some c.position.y, some c.position.z⟩
    isAlive := some c.isAlive }

/-- `fromJSON(data)`: rebuild the stats through `Stats.create` (which
validates), default absent fields, and copy the persisted `isAlive` flag
verbatim (defaulting to `true`). -/
def fromJSON (j : Json) : Except String Character := do
  let stats ← Stats.create (j.stats.health.getD 100) (j.stats.maxHealth.getD 100)
    (j.stats.hunger.getD 100) (j.stats.maxHunger.getD 100)
    (j.stats.thirst.getD 100) (j.stats.maxThirst.getD 100)
    (j.stats.temperature.getD 37) (j.stats.stamina.getD 100)
    (j.stats.maxStamina.getD 100)
  let position := Position.create (j.position.x.getD 0) (j.position.y.getD 0)
    (j.position.z.getD 0)
  pure ⟨j.id, j.characterClass, j.name, stats, position, j.isAlive.getD true⟩

end Character

/-- Types of gatherable resources. -/
inductive ResourceType where
  | tree | rock | bush
deriving DecidableEq, Repr

/-- A single drop from a resource (`IResourceDrop`). -/
structure ResourceDrop where
  itemId : String
  itemName : String
  minQuantity : ℚ
  maxQuantity : ℚ
  dropChance : ℚ
deriving DecidableEq, Repr

/-- Static configuration for a resource (`IResourceConfig`). -/
structure ResourceConfig where
  type : ResourceType
  name : String
  health : ℚ
  drops : List ResourceDrop
  requiredTool : Option String
  gatherTime : ℚ
  staminaCost : ℚ
  respawnTime : ℚ
deriving DecidableEq, Repr

/-- A gatherable resource instance (src/domain/entities/Resource.ts). -/
structure Resource where
  id : String
  config : ResourceConfig
  health : ℚ
  isDepleted : Bool
  respawnTimer : ℚ
deriving DecidableEq, Repr

namespace Resource

/-- The constructor: runtime health starts at the configured health. -/
def create (id : String) (config : ResourceConfig) : Resource :=
  ⟨id, config, config.health, false, 0⟩

/-- One rolled quantity:
`Math.floor(min + random * (max - min + 1))` for a draw `r ∈ [0,1)`. -/
def rollQuantity (d : ResourceDrop) (r : ℚ) : ℚ :=
  ((⌊d.minQuantity + r * (d.maxQuantity - d.minQuantity + 1)⌋ : ℤ) : ℚ)

/-- `rollDrops()`: each configured drop rolls independently against its
drop chance, then rolls its `minQuantity` and `maxQuantity` fields with
two further independent draws.  The `Math.random()` draws are supplied as
one oracle triple `(chance, minRoll, maxRoll)` per configured drop. -/
def rollDrops (res : Resource) (rand : List (ℚ × ℚ × ℚ)) : List ResourceDrop :=
  (res.config.drops.zip rand).filterMap fun p =>
    if p.2.1 ≤ p.1.dropChance then
      some { p.1 with
        minQuantity := rollQuantity p.1 p.2.2.1
        maxQuantity := rollQuantity p.1 p.2.2.2 }
    else none

/-- `hit(toolId)`: no-op when depleted; otherwise decrement health by one
fixed unit; on reaching `≤ 0` flip to depleted, start the respawn
countdown and return the rolled drops.  A tool mismatch is tolerated. -/
def hit (res : Resource) (_toolId : Option String)
    (rand : List (ℚ × ℚ × ℚ)) : Resource × List ResourceDrop :=
  if res.isDepleted then (res, [])
  else
    let health2 := res.health - 1
    if health2 ≤ 0 then
      let res2 := { res with
        health := health2
        isDepleted := true
        respawnTimer := res.config.respawnTime }
      (res2, res2.rollDrops rand)
    else ({ res with health := health2 }, [])

/-- `respawn()`: reset to full configured health. -/
def respawn (res : Resource) : Resource :=
  { res with health := res.config.health, isDepleted := false, respawnTimer := 0 }

/-- `updateRespawn(deltaTime)`: only meaningful while depleted; decrement
the countdown and respawn on crossing zero, reporting whether a respawn
occurred. -/
def updateRespawn (res : Resource) (deltaTime : ℚ) : Resource × Bool :=
  if !res.isDepleted then (res, false)
  else
    let t := res.respawnTimer - deltaTime
    if t ≤ 0 then (res.respawn, true)
    else ({ res with respawnTimer := t }, false)

end Resource

/-- A missing-material diagnostic entry. -/
structure MissingMaterial where
  itemId : String
  needed : ℚ
  has : ℚ
deriving DecidableEq, Repr

/-- The result-item template of a crafting recipe. -/
structure RecipeResultItem where
  id : String
  name : String
  type : ItemType
  rarity : ItemRarity
  effects : Option ItemEffect
deriving DecidableEq, Repr

/-- A crafting recipe (`ICraftingRecipe`); the required-materials `Map` is
an association list in insertion order. -/
structure CraftingRecipe where
  id : String
  name : String
  description : String
  resultItem : RecipeResultItem
  requiredMaterials : List (String × ℚ)
  craftingTime : ℚ
deriving DecidableEq, Repr

/-- Result of a crafting attempt (`ICraftingResult`). -/
structure CraftingResult where
  success : Bool
  item : Option Item
  message : String
  missingMaterials : Option (List MissingMaterial)
deriving DecidableEq, Repr

namespace CraftItemUseCase

/-- `checkMaterials`: collect every material whose held count falls short;
`hasAll` is the emptiness of that list. -/
def checkMaterials (inv : Inventory) (required : List (String × ℚ)) :
    Bool × List MissingMaterial :=
  let missing := required.filterMap fun p =>
    let has := inv.countItem p.1
    if has < p.2 then some ⟨p.1, p.2, has⟩ else none
  (missing.isEmpty, missing)

/-- The inner slot scan of `consumeMaterials` for one material: drain
matching slots until the needed amount is removed; the loop breaks once
the remainder reaches zero. -/
def consumeLoop : Inventory → List (ℕ × Option Item) → String → ℚ →
    Except String Inventory
  | inv, [], _, _ => .ok inv
  | inv, (i, o) :: rest, itemId, remaining => do
    let step ←
      match o with
      | some it =>
        if it.id == itemId && decide (0 < remaining) then do
          let toRemove := min remaining it.quantity
          let r ← inv.removeItemAt i toRemove
          pure (r.1, remaining - toRemove)
        else pure (inv, remaining)
      | none => pure (inv, remaining)
    if step.2 = 0 then .ok step.1 else consumeLoop step.1 rest itemId step.2

/-- `consumeMaterials`: scan the slot snapshot per required material. -/
def consumeMaterials (inv : Inventory) (required : List (String × ℚ)) :
    Except String Inventory :=
  required.foldlM (fun acc p => consumeLoop acc acc.getAllSlots p.1 p.2) inv

/-- `createCraftedItem(recipe)`: materials stack to 20, everything else to
1; weight 1; food results are consumable. -/
def createCraftedItem (recipe : CraftingRecipe) : Except String Item :=
  Item.create recipe.resultItem.id recipe.resultItem.name recipe.description
    recipe.resultItem.type recipe.resultItem.rarity
    (if recipe.resultItem.type = ItemType.material then 20 else 1) 1 "" ""
    (decide (recipe.resultItem.type = ItemType.food))
    recipe.resultItem.effects none 1

/-- `execute(recipe)`: reject dead character, insufficient stamina or
missing materials; otherwise consume materials, spend stamina
(`craftingTime * 2`), build the result and attempt the inventory add.
A failing add still reports failure after materials and stamina are gone.
Event publication is omitted (no observable state in the core). -/
def execute (character : Character) (inventory : Inventory)
    (recipe : CraftingRecipe) :
    Except String (Character × Inventory × CraftingResult) :=
  if !character.isAlive then
    .ok (character, inventory,
      ⟨false, none, "Character is dead and cannot craft items", none⟩)
  else
    let staminaCost := recipe.craftingTime * 2
    if !character.canUseStamina staminaCost then
      .ok (character, inventory,
        ⟨false, none, "Not enough stamina to craft this item", none⟩)
    else
      let check := checkMaterials inventory recipe.requiredMaterials
      if !check.1 then
        .ok (character, inventory,
          ⟨false, none, "Missing required materials", some check.2⟩)
      else do
        let inv2 ← consumeMaterials inventory recipe.requiredMaterials
        let character2 := character.useStamina staminaCost
        let crafted ← createCraftedItem recipe
        let add := inv2.addItem crafted
        if add.2.1 then
          .ok (character2, add.1,
            ⟨true, some crafted, "Successfully crafted " ++ recipe.name, none⟩)
        else
          .ok (character2, add.1,
            ⟨false, none, "Inventory full - cannot add crafted item", none⟩)

end CraftItemUseCase

/-- Result of a gather attempt (`IGatherResult`); the human-readable
message is omitted. -/
structure GatherResult where
  success : Bool
  drops : List (String × ℚ)
  resourceDepleted : Bool
deriving DecidableEq, Repr

namespace GatherResourceUseCase

/-- `createItemFromDrop(drop, quantity)`: berries become food, everything
else material; stack 20, weight 0.5. -/
def createItemFromDrop (drop : ResourceDrop) (quantity : ℚ) :
    Except String Item :=
  let itemType := if drop.itemId == "berries" then ItemType.food
    else ItemType.material
  Item.create drop.itemId drop.itemName ("Gathered " ++ drop.itemName)
    itemType ItemRarity.common 20 (1/2) "" ""
    (decide (itemType = ItemType.food))
    (if itemType = ItemType.food then some { hungerRestore := some 5 } else none)
    none quantity

/-- Collect each rolled drop independently: the granted quantity is the
drop's (already rolled) `minQuantity` field; a drop that does not fit is
silently skipped. -/
def collectDrops : Inventory → List ResourceDrop →
    Except String (Inventory × List (String × ℚ))
  | inv, [] => .ok (inv, [])
  | inv, drop :: rest => do
    let quantity := drop.minQuantity
    let item ← createItemFromDrop drop quantity
    let add := inv.addItem item
    let tail ← collectDrops add.1 rest
    if add.2.1 then .ok (tail.1, (drop.itemName, quantity) :: tail.2)
    else .ok (tail.1, tail.2)

/-- `execute(resource, toolId)`: reject dead character, depleted resource
or insufficient stamina; otherwise spend stamina, hit the resource and
collect the rolled drops into the inventory. -/
def execute (character : Character) (inventory : Inventory)
    (resource : Resource) (toolId : Option String)
    (rand : List (ℚ × ℚ × ℚ)) :
    Except String (Character × Inventory × Resource × GatherResult) :=
  if !character.isAlive then
    .ok (character, inventory, resource, ⟨false, [], false⟩)
  else if resource.isDepleted then
    .ok (character, inventory, resource, ⟨false, [], true⟩)
  else if !character.canUseStamina resource.config.staminaCost then
    .ok (character, inventory, resource, ⟨false, [], false⟩)
  else do
    let character2 := character.useStamina resource.config.staminaCost
    let hitRes := resource.hit toolId rand
    let collected ← collectDrops inventory hitRes.2
    .ok (character2, collected.1, hitRes.1, ⟨true, collected.2, hitRes.1.isDepleted⟩)

end GatherResourceUseCase

section StatLemmas

lemma Stats.withHealth_valid (s : Stats) (h : s.Valid) (x : ℚ) :
    (s.withHealth x).Valid := by
  obtain ⟨⟨h0, h1⟩, hh, ht, hs⟩ := h
  refine ⟨⟨le_max_left _ _, ?_⟩, hh, ht, hs⟩
  exact max_le (le_trans h0 h1) (min_le_right _ _)

lemma Stats.withHunger_valid (s : Stats) (h : s.Valid) (x : ℚ) :
    (s.withHunger x).Valid := by
  obtain ⟨hh, ⟨h0, h1⟩, ht, hs⟩ := h
  exact ⟨hh, ⟨le_max_left _ _, max_le (le_trans h0 h1) (min_le_right _ _)⟩, ht, hs⟩

lemma Stats.withThirst_valid (s : Stats) (h : s.Valid) (x : ℚ) :
    (s.withThirst x).Valid := by
  obtain ⟨hh, hg, ⟨h0, h1⟩, hs⟩ := h
  exact ⟨hh, hg, ⟨le_max_left _ _, max_le (le_trans h0 h1) (min_le_right _ _)⟩, hs⟩

lemma Stats.withStamina_valid (s : Stats) (h : s.Valid) (x : ℚ) :
    (s.withStamina x).Valid := by
  obtain ⟨hh, hg, ht, ⟨h0, h1⟩⟩ := h
  exact ⟨hh, hg, ht, ⟨le_max_left _ _, max_le (le_trans h0 h1) (min_le_right _ _)⟩⟩

lemma Stats.withTemperature_valid (s : Stats) (h : s.Valid) (x : ℚ) :
    (s.withTemperature x).Valid := h

end StatLemmas

/-- Fully healthy demo stats used by concrete witnesses. -/
def demoStats : Stats := ⟨100, 100, 100, 100, 100, 100, 37, 100, 100⟩

/-- Demo character at 90/100 health. -/
def demoChar90 : Character :=
  Character.create "c90" "survivor" "Demo90"
    ⟨90, 100, 100, 100, 100, 100, 37, 100, 100⟩ Position.zero

/-- Demo character at full health. -/
def demoChar : Character :=
  Character.create "c1" "survivor" "Demo" demoStats Position.zero

/-- C3: every stat mutation keeps each guarded field inside `[0, max]`;
healing a 90/100-health character by 30 yields exactly 100; taking 150
damage at 100 health yields health 0 and a dead character. -/
theorem character_stat_mutations_clamped :
    (∀ (c : Character) (a : ℚ), c.stats.Valid →
      (c.takeDamage a).stats.Valid ∧ (c.heal a).stats.Valid ∧
      (c.eat a).stats.Valid ∧ (c.drink a).stats.Valid ∧
      (c.useStamina a).stats.Valid ∧ (c.regenStamina a).stats.Valid) ∧
    (∀ c : Character, c.stats.health = 90 → c.stats.maxHealth = 100 →
      (c.heal 30).stats.health = 100) ∧
    (∀ c : Character, c.stats.health = 100 → c.stats.maxHealth = 100 →
      (c.takeDamage 150).stats.health = 0 ∧ (c.takeDamage 150).isAlive = false) := by
  refine ⟨fun c a h => ?_, fun c hh hm => ?_, fun c hh hm => ?_⟩
  · exact ⟨Stats.withHealth_valid _ h _, Stats.withHealth_valid _ h _,
      Stats.withHunger_valid _ h _, Stats.withThirst_valid _ h _,
      Stats.withStamina_valid _ h _, Stats.withStamina_valid _ h _⟩
  · simp [Character.heal, Character.updateStats, Stats.withHealth, hh, hm]
    norm_num
  · constructor
    · simp [Character.takeDamage, Character.updateStats, Stats.withHealth, hh, hm]
      norm_num
    · simp [Character.takeDamage, Character.updateStats, Stats.withHealth,
        Stats.isAliveB, hh, hm]
      norm_num

/-- Witness for C3 at concrete characters. -/
theorem character_stat_mutations_clamped_witness :
    (demoChar.takeDamage 17).stats.Valid ∧
    (demoChar90.heal 30).stats.health = 100 ∧
    (demoChar.takeDamage 150).stats.health = 0 ∧
    (demoChar.takeDamage 150).isAlive = false :=
  ⟨(character_stat_mutations_clamped.1 demoChar 17 (by decide)).1,
   character_stat_mutations_clamped.2.1 demoChar90 (by decide) (by decide),
   (character_stat_mutations_clamped.2.2 demoChar (by decide) (by decide)).1,
   (character_stat_mutations_clamped.2.2 demoChar (by decide) (by decide)).2⟩

/-- A persisted record with positive health but a false alive flag. -/
def inconsistentJson : Character.Json :=
  ⟨"c2", "survivor", "Ghost",
    ⟨some 50, some 100, some 100, some 100, some 100, some 100, some 37,
      some 100, some 100⟩,
    ⟨some 0, some 0, some 0⟩, some false⟩

/-- The character `Character.fromJSON` rebuilds from `inconsistentJson`. -/
def inconsistentChar : Character :=
  ⟨"c2", "survivor", "Ghost", ⟨50, 100, 100, 100, 100, 100, 37, 100, 100⟩,
    ⟨0, 0, 0⟩, false⟩

/-- C10: `Character.fromJSON` copies the persisted `isAlive` flag verbatim
(defaulting to `true` when absent) instead of re-deriving it from health;
a record with health 50 and `isAlive = false` yields a character whose
flag contradicts `stats.isAlive()`, although every mutation keeps the
flag consistent. -/
theorem fromJSON_copies_alive_flag :
    (∀ (j : Character.Json) (c : Character),
      Character.fromJSON j = .ok c → c.isAlive = j.isAlive.getD true) ∧
    (∀ (c : Character) (s : Stats), (c.updateStats s).isAlive = s.isAliveB) ∧
    Character.fromJSON inconsistentJson = .ok inconsistentChar ∧
    inconsistentChar.isAlive = false ∧
    inconsistentChar.stats.isAliveB = true := by
  refine ⟨fun j c h => ?_, fun c s => rfl, by rfl, by decide, by decide⟩
  unfold Character.fromJSON at h
  cases hc : Stats.create (j.stats.health.getD 100) (j.stats.maxHealth.getD 100)
      (j.stats.hunger.getD 100) (j.stats.maxHunger.getD 100)
      (j.stats.thirst.getD 100) (j.stats.maxThirst.getD 100)
      (j.stats.temperature.getD 37) (j.stats.stamina.getD 100)
      (j.stats.maxStamina.getD 100) with
  | error e => rw [hc] at h; simp [Except.bind] at h
  | ok s =>
    rw [hc] at h
    simp only [Except.bind, bind, pure, Except.pure, Except.ok.injEq] at h
    rw [← h]

/-- Witness for C10 at the concrete inconsistent record. -/
theorem fromJSON_copies_alive_flag_witness :
    inconsistentChar.isAlive = inconsistentJson.isAlive.getD true :=
  fromJSON_copies_alive_flag.1 inconsistentJson inconsistentChar (by rfl)

/-- A well-formed 5-stack item holding one unit. -/
def itemC8 : Item :=
  ⟨"apple", "Apple", "", .food, .common, 5, 1, "", "", false, none, none, 1⟩

/-- Refutes C8 as stated: `addToStack` clamps only at the top, so a
negative amount drives the quantity below 0, producing an item outside
`[0, maxStack]`. -/
theorem item_addToStack_negative_escapes_bounds :
    Item.create "apple" "Apple" "" .food .common 5 1 "" "" false none none 1 =
      .ok itemC8 ∧
    (itemC8.addToStack (-3)).quantity = -2 ∧
    ¬(itemC8.addToStack (-3)).QuantityValid := by
  refine ⟨rfl, ?_, ?_⟩
  · simp [Item.addToStack, itemC8, min_def]
    norm_num
  · simp [Item.addToStack, Item.QuantityValid, itemC8, min_def]
    norm_num

/-- Any item produced by `Item.create` satisfies the quantity bound the
constructor guard enforces. -/
lemma Item.create_ok_valid (idv name desc : String) (t : ItemType)
    (r : ItemRarity) (maxStack w : ℚ) (mp ip : String) (ic : Bool)
    (eff : Option ItemEffect) (cm : Option (List (String × ℚ))) (q : ℚ)
    (i : Item) (h : Item.create idv name desc t r maxStack w mp ip ic eff cm q = .ok i) :
    i.QuantityValid := by
  unfold Item.create at h
  split at h
  · exact absurd h (by simp)
  · next hguard =>
    cases h
    push_neg at hguard
    exact ⟨hguard.1, hguard.2⟩

/-- C8 amended: construction with a quantity outside `[0, maxStack]`
always throws (via `create` and `fromJSON`), every constructed item
satisfies the bound, and for nonnegative amounts `addToStack` /
`removeFromStack` keep the quantity inside `[0, maxStack]` (the clamps
are one-sided, so negative amounts are excluded). -/
theorem item_quantity_guard_amended :
    (∀ (idv name desc : String) (t : ItemType) (r : ItemRarity)
      (maxStack w : ℚ) (mp ip : String) (ic : Bool) (eff : Option ItemEffect)
      (cm : Option (List (String × ℚ))) (q : ℚ),
      (q < 0 ∨ maxStack < q) →
      Item.create idv name desc t r maxStack w mp ip ic eff cm q =
        .error "Invalid quantity") ∧
    (∀ (j : Item.Json) (i : Item), Item.fromJSON j = .ok i → i.QuantityValid) ∧
    (∀ (j : Item.Json), (j.quantity < 0 ∨ j.maxStack < j.quantity) →
      Item.fromJSON j = .error "Invalid quantity") ∧
    (∀ (i : Item) (a : ℚ), i.QuantityValid → 0 ≤ a →
      (i.addToStack a).QuantityValid ∧ (i.removeFromStack a).QuantityValid) := by
  refine ⟨fun idv name desc t r maxStack w mp ip ic eff cm q h => ?_,
    fun j i h => Item.create_ok_valid _ _ _ _ _ _ _ _ _ _ _ _ _ _ h,
    fun j h => ?_, fun i a hv ha => ⟨⟨?_, min_le_right _ _⟩, ⟨le_max_right _ _, ?_⟩⟩⟩
  · unfold Item.create
    exact if_pos h
  · unfold Item.fromJSON Item.create
    exact if_pos h
  · exact le_min (add_nonneg hv.1 ha) (le_trans hv.1 hv.2)
  · exact max_le (le_trans (sub_le_self _ ha) hv.2) (le_trans hv.1 hv.2)

/-- Witness for the amended C8 at a concrete item and amount. -/
theorem item_quantity_guard_amended_witness :
    (itemC8.addToStack 2).QuantityValid ∧ (itemC8.removeFromStack 2).QuantityValid :=
  item_quantity_guard_amended.2.2.2 itemC8 2 (by decide) (by decide)

/-- Extract the witness element from a successful `findIdx?`. -/
lemma findIdx?_some_pred {α : Type} (p : α → Bool) (l : List α) (j : ℕ)
    (h : l.findIdx? p = some j) : ∃ a, l[j]? = some a ∧ p a = true := by
  rw [List.findIdx?_eq_some_iff_findIdx_eq] at h
  obtain ⟨hl, hf⟩ := h
  refine ⟨l[j], ?_, ?_⟩
  · exact List.getElem?_eq_getElem hl
  · subst hf
    exact List.findIdx_getElem ..

/-- Total weight of a slot table (the body of `getCurrentWeight`). -/
def slotWeightSum (l : List (Option Item)) : ℚ :=
  ((l.filterMap fun o => o).map Item.getTotalWeight).sum

lemma getCurrentWeight_eq_slotWeightSum (inv : Inventory) :
    inv.getCurrentWeight = slotWeightSum inv.slots := rfl

/-- Setting an empty slot to an item adds exactly that item's total
weight. -/
lemma slotWeightSum_set_none :
    ∀ (l : List (Option Item)) (j : ℕ), l[j]? = some none →
    ∀ it : Item, slotWeightSum (l.set j (some it)) = slotWeightSum l + it.getTotalWeight := by
  intro l
  induction l with
  | nil => intro j hj it; simp at hj
  | cons o tl ih =>
    intro j hj it
    cases j with
    | zero =>
      simp only [List.getElem?_cons_zero, Option.some.injEq] at hj
      subst hj
      simp [slotWeightSum, List.set, add_comm]
    | succ n =>
      simp only [List.getElem?_cons_succ] at hj
      cases o with
      | none =>
        have := ih n hj it
        simpa [slotWeightSum, List.set] using this
      | some a =>
        have := ih n hj it
        simp only [slotWeightSum, List.filterMap_cons, List.map_cons,
          List.sum_cons, List.set] at this ⊢
        rw [this, add_assoc]

/-- A heavy wood stack: 4 units of per-unit weight 2. -/
def woodHeavy : Item :=
  ⟨"wood", "Wood", "", .material, .common, 10, 2, "", "", false, none, none, 4⟩

/-- Two more compatible units. -/
def woodHeavy2 : Item := { woodHeavy with quantity := 2 }

/-- A one-slot inventory with weight ceiling 10. -/
def invC1 : Inventory := Inventory.create "invC1" 1 10

/-- Refutes C1 as stated: starting from a freshly created inventory with
`maxWeight = 10`, two successful `addItem` calls (the second merging into
the existing stack, which `hasSpaceFor` accepts without any weight check)
leave a total carried weight of 12 > 10. -/
theorem addItem_merge_exceeds_weight_ceiling :
    (invC1.addItem woodHeavy).2.1 = true ∧
    ((invC1.addItem woodHeavy).1.addItem woodHeavy2).2.1 = true ∧
    ((invC1.addItem woodHeavy).1.addItem woodHeavy2).1.getCurrentWeight = 12 ∧
    ¬(((invC1.addItem woodHeavy).1.addItem woodHeavy2).1.getCurrentWeight ≤
        invC1.maxWeight) := by
  norm_num [Inventory.addItem, Inventory.addItemGo, Inventory.hasSpaceFor,
    Inventory.findStackableSlot, Inventory.getEmptySlotIndex, Inventory.placeInEmpty,
    Inventory.getCurrentWeight, Inventory.getAllItems, Inventory.create, invC1,
    woodHeavy, woodHeavy2, Item.canStackWith, Item.isStackable, Item.isStackFull,
    Item.getTotalWeight, Item.addToStack, Item.removeFromStack,
    List.findIdx?_cons, List.findIdx?_nil, List.replicate, min_def,
    List.filterMap_cons, List.sum_cons, List.sum_nil]

/-- When no stack-compatible slot exists, `addItem` reduces to the
empty-slot placement guarded by `hasSpaceFor`. -/
lemma addItem_no_stackable_eq (inv : Inventory) (item : Item)
    (hfind : inv.findStackableSlot item = none) :
    inv.addItem item =
      if inv.hasSpaceFor item then inv.placeInEmpty item
      else (inv, false, some item) := by
  unfold Inventory.addItem
  rw [Inventory.addItemGo, hfind]

/-- C1 amended: the weight ceiling is respected by every successful
`addItem` that does not merge (no stack-compatible slot exists, so the
item is placed into an empty slot behind the weight check); merges bypass
the check, as the counterexample shows. -/
theorem addItem_weight_ceiling_without_merge (inv : Inventory) (item : Item)
    (hfind : inv.findStackableSlot item = none)
    (hsucc : (inv.addItem item).2.1 = true) :
    (inv.addItem item).1.getCurrentWeight ≤ inv.maxWeight := by
  have heq := addItem_no_stackable_eq inv item hfind
  have hsp : inv.hasSpaceFor item = true := by
    by_contra hc
    rw [Bool.not_eq_true] at hc
    rw [heq] at hsucc
    simp [hc] at hsucc
  rw [heq, hsp] at hsucc ⊢
  simp only [eq_self_iff_true, if_true] at hsucc ⊢
  unfold Inventory.placeInEmpty at hsucc ⊢
  cases hemp : inv.getEmptySlotIndex with
  | none =>
    rw [hemp] at hsucc
    simp at hsucc
  | some j =>
    dsimp only
    have hw : inv.getCurrentWeight + item.getTotalWeight ≤ inv.maxWeight := by
      unfold Inventory.hasSpaceFor at hsp
      rw [hfind, hemp] at hsp
      simpa using hsp
    obtain ⟨a, hja, hpa⟩ := findIdx?_some_pred _ _ _ hemp
    have hnone : inv.slots[j]? = some none := by
      cases a with
      | none => exact hja
      | some x => simp [Option.isNone] at hpa
    rw [getCurrentWeight_eq_slotWeightSum]
    dsimp only
    rw [slotWeightSum_set_none inv.slots j hnone item]
    exact hw

/-- Witness for the amended C1: a non-merging add into a fresh inventory
stays under the ceiling. -/
theorem addItem_weight_ceiling_without_merge_witness :
    (invC1.addItem woodHeavy).1.getCurrentWeight ≤ invC1.maxWeight :=
  addItem_weight_ceiling_without_merge invC1 woodHeavy rfl
    (by norm_num [Inventory.addItem, Inventory.addItemGo, Inventory.hasSpaceFor,
      Inventory.findStackableSlot, Inventory.getEmptySlotIndex,
      Inventory.placeInEmpty, Inventory.getCurrentWeight, Inventory.getAllItems,
      Inventory.create, invC1, woodHeavy, Item.canStackWith, Item.getTotalWeight,
      List.findIdx?_cons, List.findIdx?_nil, List.replicate])

/-- Existing stack holding 2 of its 10-capacity. -/
def woodStack2 : Item :=
  ⟨"wood", "Wood", "", .material, .common, 10, 1, "", "", false, none, none, 2⟩

/-- A compatible incoming item carrying 15 units (its own stack cap is 20,
so the constructor guard admits it). -/
def woodIncoming15 : Item :=
  ⟨"wood", "Wood", "", .material, .common, 20, 1, "", "", false, none, none, 15⟩

/-- Inventory with the 2/10 stack and two empty slots. -/
def invC5 : Inventory := ⟨"invC5", 3, 100, [some woodStack2, none, none]⟩

/-- Same stack but no empty slot. -/
def invC5full : Inventory := ⟨"invC5full", 1, 100, [some woodStack2]⟩

/-- Refutes C5 as stated: merging 15 units into a 2/10 stack leaves a
full stack of 10 and a remainder of 7 — not 5 — in the new slot. -/
theorem addItem_merge_remainder_is_seven_not_five :
    Item.create "wood" "Wood" "" .material .common 20 1 "" "" false none none 15 =
      .ok woodIncoming15 ∧
    (invC5.addItem woodIncoming15).2.1 = true ∧
    (invC5.addItem woodIncoming15).1.slots.getD 1 none =
      some { woodIncoming15 with quantity := 7 } ∧
    ¬((invC5.addItem woodIncoming15).1.slots.getD 1 none =
      some { woodIncoming15 with quantity := 5 }) := by
  refine ⟨rfl, ?_, ?_, ?_⟩ <;>
    norm_num [Inventory.addItem, Inventory.addItemGo, Inventory.hasSpaceFor,
      Inventory.findStackableSlot, Inventory.getEmptySlotIndex,
      Inventory.placeInEmpty, Inventory.getCurrentWeight, Inventory.getAllItems,
      invC5, woodStack2, woodIncoming15, Item.canStackWith, Item.isStackable,
      Item.isStackFull, Item.getTotalWeight, Item.addToStack, Item.removeFromStack,
      List.findIdx?_cons, List.findIdx?_nil, min_def, max_def,
      List.filterMap_cons, List.sum_cons, List.sum_nil]

/-- C5 amended: with an empty slot free the add completes the stack to 10
and places the remainder of 7 in the new slot; with no empty slot the add
is rejected (returning the 7-unit remainder, the stack having already
been completed) — stack-completion is always attempted first. -/
theorem addItem_stack_merge_behavior :
    (invC5.addItem woodIncoming15).2.1 = true ∧
    (invC5.addItem woodIncoming15).1.slots =
      [some { woodStack2 with quantity := 10 },
        some { woodIncoming15 with quantity := 7 }, none] ∧
    (invC5full.addItem woodIncoming15).2.1 = false ∧
    (invC5full.addItem woodIncoming15).2.2 =
      some { woodIncoming15 with quantity := 7 } ∧
    (invC5full.addItem woodIncoming15).1.slots =
      [some { woodStack2 with quantity := 10 }] := by
  refine ⟨?_, ?_, ?_, ?_, ?_⟩ <;>
    norm_num [Inventory.addItem, Inventory.addItemGo, Inventory.hasSpaceFor,
      Inventory.findStackableSlot, Inventory.getEmptySlotIndex,
      Inventory.placeInEmpty, Inventory.getCurrentWeight, Inventory.getAllItems,
      invC5, invC5full, woodStack2, woodIncoming15, Item.canStackWith,
      Item.isStackable, Item.isStackFull, Item.getTotalWeight, Item.addToStack,
      Item.removeFromStack, List.findIdx?_cons, List.findIdx?_nil, min_def,
      max_def, List.filterMap_cons, List.sum_cons, List.sum_nil]

lemma exceptBind_ok {α β : Type} (a : α) (f : α → Except String β) :
    (Except.ok a >>= f) = f a := rfl

lemma exceptBind_error {α β : Type} (e : String) (f : α → Except String β) :
    ((Except.error e : Except String α) >>= f) = Except.error e := rfl

/-- C2: whenever the alive/stamina/materials preconditions pass but the
final inventory add fails, `execute` reports failure while the returned
state already carries the consumed materials (`inv2`, possibly further
modified by a partial merge of the failing add) and the stamina deduction
of `craftingTime * 2` — nothing is rolled back. -/
theorem craft_failure_keeps_consumed_state (ch : Character) (inv : Inventory)
    (recipe : CraftingRecipe) (inv2 : Inventory) (crafted : Item)
    (halive : ch.isAlive = true)
    (hstam : ch.canUseStamina (recipe.craftingTime * 2) = true)
    (hcheck : (CraftItemUseCase.checkMaterials inv recipe.requiredMaterials).1 = true)
    (hcons : CraftItemUseCase.consumeMaterials inv recipe.requiredMaterials = .ok inv2)
    (hcrafted : CraftItemUseCase.createCraftedItem recipe = .ok crafted)
    (hadd : (inv2.addItem crafted).2.1 = false) :
    CraftItemUseCase.execute ch inv recipe =
      .ok (ch.useStamina (recipe.craftingTime * 2), (inv2.addItem crafted).1,
        ⟨false, none, "Inventory full - cannot add crafted item", none⟩) := by
  unfold CraftItemUseCase.execute
  simp only [halive, hstam, hcheck, hcons, hcrafted, hadd, Bool.not_true,
    Bool.false_eq_true, if_false, eq_self_iff_true, if_true, exceptBind_ok]

lemma wood_ne_axe : ("wood" : String) ≠ "stone_axe" := by decide

lemma woodName_ne_axeName : ("Wood" : String) ≠ "Stone Axe" := by decide

/-- Two units of wood in a one-slot inventory. -/
def woodSmall : Item :=
  ⟨"wood", "Wood", "", .material, .common, 20, 1, "", "", false, none, none, 2⟩

/-- One-slot inventory holding the wood. -/
def invC2 : Inventory := ⟨"invC2", 1, 100, [some woodSmall]⟩

/-- A recipe consuming one wood into a (non-material) tool. -/
def recipeC2 : CraftingRecipe :=
  ⟨"stone_axe", "Stone Axe", "A basic axe",
    ⟨"stone_axe", "Stone Axe", .tool, .common, none⟩, [("wood", 1)], 5⟩

/-- The inventory after the material was consumed: one wood left. -/
def invC2after : Inventory := ⟨"invC2", 1, 100, [some { woodSmall with quantity := 1 }]⟩

/-- The crafted axe. -/
def axeC2 : Item :=
  ⟨"stone_axe", "Stone Axe", "A basic axe", .tool, .common, 1, 1, "", "", false,
    none, none, 1⟩

/-- Witness for C2: the concrete failing craft leaves one wood consumed
and 10 stamina spent. -/
theorem craft_failure_keeps_consumed_state_witness :
    CraftItemUseCase.execute demoChar invC2 recipeC2 =
      .ok (demoChar.useStamina (recipeC2.craftingTime * 2),
        (invC2after.addItem axeC2).1,
        ⟨false, none, "Inventory full - cannot add crafted item", none⟩) ∧
    invC2.countItem "wood" = 2 ∧
    invC2after.countItem "wood" = 1 ∧
    (demoChar.useStamina (recipeC2.craftingTime * 2)).stats.stamina = 90 := by
  refine ⟨craft_failure_keeps_consumed_state demoChar invC2 recipeC2 invC2after
    axeC2 rfl ?_ ?_ ?_ rfl ?_, ?_, ?_, ?_⟩
  · norm_num [Character.canUseStamina, demoChar, demoStats, Character.create,
      recipeC2]
  · norm_num [CraftItemUseCase.checkMaterials, Inventory.countItem,
      Inventory.getAllItems, invC2, woodSmall, recipeC2, List.filterMap_cons,
      List.sum_cons, List.sum_nil]
  · norm_num [CraftItemUseCase.consumeMaterials, CraftItemUseCase.consumeLoop,
      Inventory.removeItemAt, Inventory.getAllSlots, invC2, invC2after,
      woodSmall, recipeC2, Item.create, Item.removeFromStack, List.enum_cons,
      List.enumFrom, min_def, max_def, exceptBind_ok]
  · norm_num [Inventory.addItem, Inventory.addItemGo, Inventory.hasSpaceFor,
      Inventory.findStackableSlot, Inventory.getEmptySlotIndex,
      Inventory.placeInEmpty, invC2after, woodSmall, axeC2, Item.canStackWith,
      Item.isStackable, Item.isStackFull, List.findIdx?_cons, List.findIdx?_nil,
      wood_ne_axe, woodName_ne_axeName]
  · norm_num [Inventory.countItem, Inventory.getAllItems, invC2, woodSmall,
      List.filterMap_cons, List.sum_cons, List.sum_nil]
  · norm_num [Inventory.countItem, Inventory.getAllItems, invC2after, woodSmall,
      List.filterMap_cons, List.sum_cons, List.sum_nil]
  · norm_num [Character.useStamina, Character.updateStats, Stats.withStamina,
      demoChar, demoStats, Character.create, recipeC2, min_def, max_def]

lemma wood_ne_stone : ("wood" : String) ≠ "stone" := by decide

lemma axe_ne_wood : ("stone_axe" : String) ≠ "wood" := by decide

lemma axe_ne_stone : ("stone_axe" : String) ≠ "stone" := by decide

/-- Three wood. -/
def woodC6 : Item :=
  ⟨"wood", "Wood", "", .material, .common, 20, 1/2, "", "", false, none, none, 3⟩

/-- Two stone. -/
def stoneC6 : Item :=
  ⟨"stone", "Stone", "", .material, .common, 20, 1/2, "", "", false, none, none, 2⟩

/-- The stone-axe recipe: 3 wood + 2 stone, 5 seconds. -/
def stoneAxeRecipe : CraftingRecipe :=
  ⟨"stone_axe", "Stone Axe", "A basic axe made from stone and wood",
    ⟨"stone_axe", "Stone Axe", .tool, .common, none⟩,
    [("wood", 3), ("stone", 2)], 5⟩

/-- A living character with health `h` and stamina `s`. -/
def craftChar (h s : ℚ) : Character :=
  Character.create "c" "survivor" "Hero"
    ⟨h, 100, 100, 100, 100, 100, 37, s, 100⟩ Position.zero

/-- Inventory containing exactly 3 wood and 2 stone. -/
def invC6 : Inventory := ⟨"invC6", 4, 100, [some woodC6, some stoneC6, none, none]⟩

/-- The same inventory with all materials consumed. -/
def invC6after : Inventory := ⟨"invC6", 4, 100, [none, none, none, none]⟩

/-- The crafted stone axe. -/
def axeC6 : Item :=
  ⟨"stone_axe", "Stone Axe", "A basic axe made from stone and wood", .tool,
    .common, 1, 1, "", "", false, none, none, 1⟩

/-- Final inventory: just the axe. -/
def invC6final : Inventory := ⟨"invC6", 4, 100, [some axeC6, none, none, none]⟩

/-- C6: crafting the stone axe from exactly 3 wood + 2 stone succeeds for
any living character with stamina in `[10, 100]`, leaves 0 wood and 0
stone, adds exactly one Stone Axe, and deducts exactly 10 stamina. -/
theorem craft_stone_axe_end_to_end (h s : ℚ) (hh0 : 0 < h) (hh1 : h ≤ 100)
    (hs0 : 10 ≤ s) (hs1 : s ≤ 100) :
    CraftItemUseCase.execute (craftChar h s) invC6 stoneAxeRecipe =
      .ok ((craftChar h s).useStamina (stoneAxeRecipe.craftingTime * 2),
        invC6final, ⟨true, some axeC6, "Successfully crafted Stone Axe", none⟩) ∧
    invC6final.countItem "wood" = 0 ∧
    invC6final.countItem "stone" = 0 ∧
    invC6final.countItem "stone_axe" = 1 ∧
    ((craftChar h s).useStamina (stoneAxeRecipe.craftingTime * 2)).stats.stamina
      = s - 10 := by
  have halive : (craftChar h s).isAlive = true := rfl
  have hstam : (craftChar h s).canUseStamina (stoneAxeRecipe.craftingTime * 2) = true := by
    simp only [Character.canUseStamina, craftChar, Character.create,
      stoneAxeRecipe, decide_eq_true_eq]
    norm_num
    linarith
  have hcheck : (CraftItemUseCase.checkMaterials invC6 stoneAxeRecipe.requiredMaterials).1 = true := by
    norm_num [CraftItemUseCase.checkMaterials, Inventory.countItem,
      Inventory.getAllItems, invC6, woodC6, stoneC6, stoneAxeRecipe,
      List.filterMap_cons, List.sum_cons, List.sum_nil, wood_ne_stone,
      wood_ne_stone.symm]
  have hcons : CraftItemUseCase.consumeMaterials invC6 stoneAxeRecipe.requiredMaterials = .ok invC6after := by
    norm_num [CraftItemUseCase.consumeMaterials, CraftItemUseCase.consumeLoop,
      Inventory.removeItemAt, Inventory.getAllSlots, invC6, invC6after, woodC6,
      stoneC6, stoneAxeRecipe, Item.create, Item.removeFromStack, List.enum_cons,
      List.enumFrom, min_def, max_def, exceptBind_ok, wood_ne_stone,
      wood_ne_stone.symm]
  have hcrafted : CraftItemUseCase.createCraftedItem stoneAxeRecipe = .ok axeC6 := rfl
  have hadd : invC6after.addItem axeC6 = (invC6final, true, none) := by
    norm_num [Inventory.addItem, Inventory.addItemGo, Inventory.hasSpaceFor,
      Inventory.findStackableSlot, Inventory.getEmptySlotIndex,
      Inventory.placeInEmpty, Inventory.getCurrentWeight, Inventory.getAllItems,
      invC6after, invC6final, axeC6, Item.canStackWith, Item.getTotalWeight,
      List.findIdx?_cons, List.findIdx?_nil, List.filterMap_cons,
      List.sum_nil]
  refine ⟨?_, ?_, ?_, ?_, ?_⟩
  · unfold CraftItemUseCase.execute
    simp only [halive, hstam, hcheck, hcons, hcrafted, hadd, Bool.not_true,
      Bool.false_eq_true, if_false, eq_self_iff_true, if_true, exceptBind_ok]
    rfl
  · norm_num [Inventory.countItem, Inventory.getAllItems, invC6final, axeC6,
      List.filterMap_cons, List.sum_cons, List.sum_nil, axe_ne_wood]
  · norm_num [Inventory.countItem, Inventory.getAllItems, invC6final, axeC6,
      List.filterMap_cons, List.sum_cons, List.sum_nil, axe_ne_stone]
  · norm_num [Inventory.countItem, Inventory.getAllItems, invC6final, axeC6,
      List.filterMap_cons, List.sum_cons, List.sum_nil]
  · simp only [Character.useStamina, Character.updateStats, Stats.withStamina,
      craftChar, Character.create, stoneAxeRecipe]
    norm_num
    rw [min_eq_left (by linarith), max_eq_right (by linarith)]

/-- Witness for C6 at full health and stamina. -/
theorem craft_stone_axe_end_to_end_witness :
    CraftItemUseCase.execute (craftChar 100 100) invC6 stoneAxeRecipe =
      .ok ((craftChar 100 100).useStamina (stoneAxeRecipe.craftingTime * 2),
        invC6final, ⟨true, some axeC6, "Successfully crafted Stone Axe", none⟩) ∧
    ((craftChar 100 100).useStamina (stoneAxeRecipe.craftingTime * 2)).stats.stamina
      = 90 := by
  obtain ⟨he, _, _, _, hst⟩ :=
    craft_stone_axe_end_to_end 100 100 (by norm_num) (by norm_num)
      (by norm_num) (by norm_num)
  exact ⟨he, by rw [hst]; norm_num⟩

/-- Iterate `hit` (tool and drop rolls are irrelevant to the health state
machine). -/
def hitIter (r : Resource) : ℕ → Resource
  | 0 => r
  | k + 1 => ((hitIter r k).hit none []).1

/-- Feed a list of `deltaTime`s through `updateRespawn`, collecting the
returned respawn flags in order. -/
def runRespawn : Resource → List ℚ → Resource × List Bool
  | r, [] => (r, [])
  | r, dt :: rest =>
    let step := r.updateRespawn dt
    let tail := runRespawn step.1 rest
    (tail.1, step.2 :: tail.2)

lemma hit_not_depleted (r : Resource) (hr : r.isDepleted = false) :
    (r.hit none []).1 =
      if r.health - 1 ≤ 0 then
        { r with
            health := r.health - 1
            isDepleted := true
            respawnTimer := r.config.respawnTime }
      else { r with health := r.health - 1 } := by
  unfold Resource.hit
  rw [hr]
  simp only [Bool.false_eq_true, if_false]
  by_cases hh : r.health - 1 ≤ 0
  · rw [if_pos hh, if_pos hh]
  · rw [if_neg hh, if_neg hh]

lemma hitIter_state (idv : String) (cfg : ResourceConfig) (h5 : cfg.health = 5) :
    ∀ k : ℕ, k ≤ 5 →
      hitIter (Resource.create idv cfg) k =
        if k < 5 then ⟨idv, cfg, 5 - (k : ℚ), false, 0⟩
        else ⟨idv, cfg, 0, true, cfg.respawnTime⟩ := by
  intro k
  induction k with
  | zero =>
    intro _
    simp [hitIter, Resource.create, h5]
  | succ n ih =>
    intro hk
    have hn5 : n < 5 := by omega
    have hstate := ih (by omega)
    rw [if_pos hn5] at hstate
    show ((hitIter (Resource.create idv cfg) n).hit none []).1 = _
    rw [hstate, hit_not_depleted _ rfl]
    dsimp only
    by_cases hcase : n = 4
    · subst hcase
      rw [if_pos (by norm_num), if_neg (by omega)]
      simp only [Resource.mk.injEq, and_true, true_and]
      norm_num
    · have hlt : n + 1 < 5 := by omega
      have hn3 : (n : ℚ) ≤ 3 := by exact_mod_cast (by omega : n ≤ 3)
      rw [if_neg (by linarith : ¬(5 - (n : ℚ) - 1 ≤ 0)), if_pos hlt]
      simp only [Resource.mk.injEq, and_true, true_and]
      push_cast
      ring

lemma runRespawn_not_depleted (r : Resource) (hr : r.isDepleted = false) :
    ∀ dts : List ℚ, runRespawn r dts = (r, List.replicate dts.length false) := by
  intro dts
  induction dts with
  | nil => rfl
  | cons dt rest ih =>
    simp [runRespawn, Resource.updateRespawn, hr, ih, List.replicate_succ]

lemma getD_replicate_false (k m : ℕ) : (List.replicate k false).getD m false = false := by
  induction k generalizing m with
  | zero => simp [List.replicate]
  | succ n ih =>
    cases m with
    | zero => simp [List.replicate]
    | succ m2 => simp [List.replicate, ih m2]

lemma take_sum_nonneg (l : List ℚ) (hl : ∀ d ∈ l, 0 ≤ d) (n : ℕ) :
    0 ≤ (l.take n).sum :=
  List.sum_nonneg fun x hx => hl x (List.mem_of_mem_take hx)

lemma runRespawn_depleted_spec :
    ∀ (dts : List ℚ), (∀ d ∈ dts, 0 ≤ d) → ∀ (r : Resource) (c : ℚ),
      r.isDepleted = true → r.respawnTimer = r.config.respawnTime - c →
      c < r.config.respawnTime →
      (∀ n, n < dts.length →
        ((runRespawn r dts).2.getD n false = true ↔
          r.config.respawnTime ≤ c + (dts.take (n + 1)).sum ∧
          c + (dts.take n).sum < r.config.respawnTime)) ∧
      (r.config.respawnTime ≤ c + dts.sum →
        (runRespawn r dts).1.health = r.config.health ∧
        (runRespawn r dts).1.isDepleted = false) := by
  intro dts
  induction dts with
  | nil =>
    intro _ r c _ _ hc
    refine ⟨fun n hn => absurd hn (by simp), fun hsum => ?_⟩
    simp only [List.sum_nil, add_zero] at hsum
    exact absurd hsum (not_le.mpr hc)
  | cons dt rest ih =>
    intro hd r c hdep ht hc
    have hdt : 0 ≤ dt := hd dt (List.mem_cons_self dt rest)
    have hrest : ∀ d ∈ rest, 0 ≤ d := fun d hm => hd d (List.mem_cons_of_mem _ hm)
    have hstep : r.updateRespawn dt =
        if r.config.respawnTime ≤ c + dt then (r.respawn, true)
        else ({ r with respawnTimer := r.config.respawnTime - (c + dt) }, false) := by
      unfold Resource.updateRespawn
      rw [hdep]
      simp only [Bool.not_true, Bool.false_eq_true, if_false, ht]
      by_cases hb : r.config.respawnTime ≤ c + dt
      · rw [if_pos (by linarith), if_pos hb]
      · rw [if_neg (by intro hx; exact hb (by linarith)), if_neg hb]
        have : r.config.respawnTime - c - dt = r.config.respawnTime - (c + dt) := by ring
        rw [this]
    by_cases hb : r.config.respawnTime ≤ c + dt
    · rw [if_pos hb] at hstep
      have hrun : runRespawn r (dt :: rest) =
          (r.respawn, true :: List.replicate rest.length false) := by
        simp only [runRespawn, hstep, runRespawn_not_depleted r.respawn rfl rest]
      rw [hrun]
      constructor
      · intro n hn
        cases n with
        | zero =>
          simp only [List.getD_cons_zero, List.take_succ_cons, List.take_zero,
            List.sum_cons, List.sum_nil, add_zero]
          exact ⟨fun _ => ⟨by linarith, hc⟩, fun _ => trivial⟩
        | succ m =>
          simp only [List.getD_cons_succ, getD_replicate_false,
            List.take_succ_cons, List.sum_cons]
          constructor
          · intro hfalse; exact absurd hfalse (by simp)
          · intro ⟨_, hlt⟩
            have := take_sum_nonneg rest hrest m
            linarith
      · intro _
        exact ⟨rfl, rfl⟩
    · rw [if_neg hb] at hstep
      push_neg at hb
      set r2 : Resource := { r with respawnTimer := r.config.respawnTime - (c + dt) } with hr2
      have hcfg : r2.config = r.config := rfl
      obtain ⟨ih1, ih2⟩ := ih hrest r2 (c + dt) (by rw [hr2]; exact hdep)
        (by rw [hr2, hcfg]) (by rw [hcfg]; exact hb)
      have hrun : runRespawn r (dt :: rest) =
          ((runRespawn r2 rest).1, false :: (runRespawn r2 rest).2) := by
        simp only [runRespawn, hstep]
      rw [hrun]
      constructor
      · intro n hn
        cases n with
        | zero =>
          simp only [List.getD_cons_zero, List.take_succ_cons, List.take_zero,
            List.sum_cons, List.sum_nil, add_zero]
          constructor
          · intro hfalse; exact absurd hfalse (by simp)
          · intro ⟨hge, _⟩; exact absurd hge (not_le.mpr hb)
        | succ m =>
          have hm : m < rest.length := by
            simp only [List.length_cons] at hn; omega
          have := ih1 m hm
          rw [hcfg] at this
          simp only [List.getD_cons_succ, List.take_succ_cons, List.sum_cons]
          rw [this]
          constructor
          · intro ⟨h1, h2⟩; exact ⟨by linarith, by linarith⟩
          · intro ⟨h1, h2⟩; exact ⟨by linarith, by linarith⟩
      · intro hsum
        simp only [List.sum_cons] at hsum
        have := ih2 (by rw [hcfg]; linarith)
        rw [hcfg] at this
        exact this

lemma hit_depleted (r : Resource) (hr : r.isDepleted = true) :
    r.hit none [] = (r, []) := by
  unfold Resource.hit
  rw [hr]
  simp

/-- C4: with configured health 5, exactly 5 hits deplete (health counts
down `5 − k`, never negative, and further hits are no-ops); from the
depleted state, `updateRespawn` reports a respawn exactly on the call
where the cumulative elapsed time first reaches `respawnTime`, after
which health is the configured value and the depleted flag is cleared. -/
theorem resource_five_hits_then_respawn (idv : String) (cfg : ResourceConfig)
    (h5 : cfg.health = 5) (hT : 0 < cfg.respawnTime) :
    (∀ k : ℕ, k ≤ 5 →
      (hitIter (Resource.create idv cfg) k).health = 5 - (k : ℚ) ∧
      ((hitIter (Resource.create idv cfg) k).isDepleted = true ↔ k = 5)) ∧
    (∀ k : ℕ, 0 ≤ (hitIter (Resource.create idv cfg) k).health) ∧
    (∀ k : ℕ, 5 ≤ k →
      hitIter (Resource.create idv cfg) k = hitIter (Resource.create idv cfg) 5) ∧
    (∀ dts : List ℚ, (∀ d ∈ dts, 0 ≤ d) →
      (∀ n, n < dts.length →
        ((runRespawn (hitIter (Resource.create idv cfg) 5) dts).2.getD n false = true ↔
          cfg.respawnTime ≤ (dts.take (n + 1)).sum ∧
          (dts.take n).sum < cfg.respawnTime)) ∧
      (cfg.respawnTime ≤ dts.sum →
        (runRespawn (hitIter (Resource.create idv cfg) 5) dts).1.health = cfg.health ∧
        (runRespawn (hitIter (Resource.create idv cfg) 5) dts).1.isDepleted = false)) := by
  have hstate := hitIter_state idv cfg h5
  have h5st : hitIter (Resource.create idv cfg) 5 =
      ⟨idv, cfg, 0, true, cfg.respawnTime⟩ := by
    simpa using hstate 5 le_rfl
  have hstable : ∀ m : ℕ,
      hitIter (Resource.create idv cfg) (5 + m) = hitIter (Resource.create idv cfg) 5 := by
    intro m
    induction m with
    | zero => rfl
    | succ p ihp =>
      show ((hitIter (Resource.create idv cfg) (5 + p)).hit none []).1 = _
      rw [ihp, h5st, hit_depleted _ rfl, ← h5st]
  refine ⟨?_, ?_, ?_, ?_⟩
  · intro k hk
    have hs := hstate k hk
    by_cases hlt : k < 5
    · rw [if_pos hlt] at hs
      rw [hs]
      refine ⟨rfl, ?_⟩
      constructor
      · intro hfalse; exact absurd hfalse (by simp)
      · intro h55; omega
    · have hk5 : k = 5 := by omega
      subst hk5
      rw [if_neg hlt] at hs
      rw [hs]
      norm_num
  · intro k
    by_cases hk : k ≤ 5
    · have hs := hstate k hk
      by_cases hlt : k < 5
      · rw [if_pos hlt] at hs
        rw [hs]
        have hck : (k : ℚ) ≤ 5 := by exact_mod_cast hk
        dsimp only
        linarith
      · rw [if_neg hlt] at hs
        rw [hs]
    · obtain ⟨m, rfl⟩ : ∃ m, k = 5 + m := ⟨k - 5, by omega⟩
      rw [hstable m, h5st]
  · intro k hk
    obtain ⟨m, rfl⟩ : ∃ m, k = 5 + m := ⟨k - 5, by omega⟩
    exact hstable m
  · intro dts hd
    rw [h5st]
    obtain ⟨hA, hB⟩ := runRespawn_depleted_spec dts hd
      ⟨idv, cfg, 0, true, cfg.respawnTime⟩ 0 rfl (by dsimp only; ring)
      (by dsimp only; exact hT)
    constructor
    · intro n hn
      have := hA n hn
      simpa using this
    · intro hsum
      have := hB (by simpa using hsum)
      simpa using this

/-- Concrete oak-tree configuration: health 5, 60-second respawn. -/
def cfgC4 : ResourceConfig := ⟨.tree, "Oak Tree", 5, [], none, 1, 5, 60⟩

/-- Witness for C4 at the oak tree with elapsed times 30 + 40. -/
theorem resource_five_hits_then_respawn_witness :
    (hitIter (Resource.create "r1" cfgC4) 3).health = 2 ∧
    (hitIter (Resource.create "r1" cfgC4) 5).isDepleted = true ∧
    (runRespawn (hitIter (Resource.create "r1" cfgC4) 5) [30, 40]).2.getD 1 false = true ∧
    (runRespawn (hitIter (Resource.create "r1" cfgC4) 5) [30, 40]).1.health = cfgC4.health := by
  obtain ⟨ha, hnn, hst, hresp⟩ :=
    resource_five_hits_then_respawn "r1" cfgC4 rfl (by norm_num [cfgC4])
  obtain ⟨hA, hB⟩ := hresp [30, 40] (by norm_num)
  refine ⟨?_, ?_, ?_, ?_⟩
  · rw [(ha 3 (by norm_num)).1]; norm_num
  · exact (ha 5 le_rfl).2.mpr rfl
  · exact (hA 1 (by norm_num)).mpr (by norm_num [cfgC4])
  · exact (hB (by norm_num [cfgC4])).1

lemma rollQuantity_bounds (d : ResourceDrop) (m M : ℤ)
    (hm : d.minQuantity = (m : ℚ)) (hM : d.maxQuantity = (M : ℚ))
    (hle : m ≤ M) (r : ℚ) (hr0 : 0 ≤ r) (hr1 : r < 1) :
    d.minQuantity ≤ Resource.rollQuantity d r ∧
    Resource.rollQuantity d r ≤ d.maxQuantity := by
  unfold Resource.rollQuantity
  rw [hm, hM]
  have hcast : (m : ℚ) ≤ (M : ℚ) := by exact_mod_cast hle
  have hspan : (0 : ℚ) < (M : ℚ) - m + 1 := by linarith
  constructor
  · have hx : (m : ℚ) ≤ (m : ℚ) + r * ((M : ℚ) - m + 1) := by
      have := mul_nonneg hr0 (le_of_lt hspan)
      linarith
    exact_mod_cast Int.le_floor.mpr hx
  · have hx : (m : ℚ) + r * ((M : ℚ) - m + 1) < (M : ℚ) + 1 := by
      have := mul_lt_mul_of_pos_right hr1 hspan
      linarith
    have h1 : ⌊(m : ℚ) + r * ((M : ℚ) - m + 1)⌋ < M + 1 :=
      Int.floor_lt.mpr (by exact_mod_cast hx)
    have h2 : ⌊(m : ℚ) + r * ((M : ℚ) - m + 1)⌋ ≤ M := by omega
    exact_mod_cast h2

lemma rollDrops_mem (res : Resource) (rand : List (ℚ × ℚ × ℚ))
    (rd : ResourceDrop) (h : rd ∈ res.rollDrops rand) :
    ∃ d ∈ res.config.drops, ∃ t ∈ rand,
      rd = { d with
        minQuantity := Resource.rollQuantity d t.2.1
        maxQuantity := Resource.rollQuantity d t.2.2 } := by
  unfold Resource.rollDrops at h
  rw [List.mem_filterMap] at h
  obtain ⟨p, hp, hf⟩ := h
  have hz := List.of_mem_zip hp
  by_cases hc : p.2.1 ≤ p.1.dropChance
  · rw [if_pos hc] at hf
    refine ⟨p.1, hz.1, p.2, hz.2, ?_⟩
    exact (Option.some.injEq _ _ ▸ hf).symm
  · rw [if_neg hc] at hf
    cases hf

lemma hit_drops_mem (res : Resource) (tid : Option String)
    (rand : List (ℚ × ℚ × ℚ)) (rd : ResourceDrop)
    (h : rd ∈ (res.hit tid rand).2) :
    ∃ d ∈ res.config.drops, ∃ t ∈ rand,
      rd = { d with
        minQuantity := Resource.rollQuantity d t.2.1
        maxQuantity := Resource.rollQuantity d t.2.2 } := by
  unfold Resource.hit at h
  split at h
  · simp at h
  · dsimp only at h
    split at h
    · exact rollDrops_mem _ rand rd h
    · simp at h

lemma collectDrops_mem :
    ∀ (L : List ResourceDrop) (inv : Inventory)
      (pr : Inventory × List (String × ℚ)),
      GatherResourceUseCase.collectDrops inv L = .ok pr →
      ∀ e ∈ pr.2, ∃ rd ∈ L, e = (rd.itemName, rd.minQuantity) := by
  intro L
  induction L with
  | nil =>
    intro inv pr h e he
    unfold GatherResourceUseCase.collectDrops at h
    cases h
    simp at he
  | cons d rest ih =>
    intro inv pr h e he
    unfold GatherResourceUseCase.collectDrops at h
    dsimp only at h
    cases hc : GatherResourceUseCase.createItemFromDrop d d.minQuantity with
    | error e2 =>
      rw [hc] at h
      exact absurd h (by simp [exceptBind_error])
    | ok item =>
      rw [hc] at h
      simp only [exceptBind_ok] at h
      cases ht : GatherResourceUseCase.collectDrops (inv.addItem item).1 rest with
      | error e2 =>
        rw [ht] at h
        exact absurd h (by simp [exceptBind_error])
      | ok tail =>
        rw [ht] at h
        simp only [exceptBind_ok] at h
        by_cases hsucc : (inv.addItem item).2.1 = true
        · rw [if_pos hsucc] at h
          cases h
          rcases List.mem_cons.mp he with hhead | htail
          · exact ⟨d, List.mem_cons_self d rest, hhead⟩
          · obtain ⟨rd, hrd, hegg⟩ := ih (inv.addItem item).1 tail ht e htail
            exact ⟨rd, List.mem_cons_of_mem d hrd, hegg⟩
        · rw [if_neg hsucc] at h
          cases h
          obtain ⟨rd, hrd, hegg⟩ := ih (inv.addItem item).1 tail ht e he
          exact ⟨rd, List.mem_cons_of_mem d hrd, hegg⟩

/-- C9: every drop granted by a gather carries as its quantity the rolled
`minQuantity` field of the corresponding rolled drop (the independently
rolled `maxQuantity` is ignored), and for integer-configured drops with
`0 < min ≤ max` and oracle draws in `[0,1)` that quantity lies within the
configured `[minQuantity, maxQuantity]` range. -/
theorem gather_grants_rolled_min_within_range (ch : Character)
    (inv : Inventory) (res : Resource) (toolId : Option String)
    (rand : List (ℚ × ℚ × ℚ))
    (hdrops : ∀ d ∈ res.config.drops, ∃ m M : ℤ, d.minQuantity = (m : ℚ) ∧
      d.maxQuantity = (M : ℚ) ∧ 0 < m ∧ m ≤ M)
    (hrand : ∀ t ∈ rand, (0 ≤ t.2.1 ∧ t.2.1 < 1) ∧ (0 ≤ t.2.2 ∧ t.2.2 < 1))
    (out : Character × Inventory × Resource × GatherResult)
    (hout : GatherResourceUseCase.execute ch inv res toolId rand = .ok out) :
    ∀ e ∈ out.2.2.2.drops,
      (∃ rd ∈ (res.hit toolId rand).2, e = (rd.itemName, rd.minQuantity)) ∧
      (∃ d ∈ res.config.drops,
        e.1 = d.itemName ∧ d.minQuantity ≤ e.2 ∧ e.2 ≤ d.maxQuantity) := by
  intro e he
  unfold GatherResourceUseCase.execute at hout
  split at hout
  · cases hout; simp at he
  · split at hout
    · cases hout; simp at he
    · split at hout
      · cases hout; simp at he
      · dsimp only at hout
        cases hcol : GatherResourceUseCase.collectDrops inv (res.hit toolId rand).2 with
        | error e2 =>
          rw [hcol] at hout
          exact absurd hout (by simp [exceptBind_error])
        | ok col =>
          rw [hcol] at hout
          simp only [exceptBind_ok] at hout
          cases hout
          simp only at he
          obtain ⟨rd, hrdmem, herd⟩ :=
            collectDrops_mem (res.hit toolId rand).2 inv col hcol e he
          refine ⟨⟨rd, hrdmem, herd⟩, ?_⟩
          obtain ⟨d, hd, t, ht, hrdeq⟩ := hit_drops_mem res toolId rand rd hrdmem
          obtain ⟨m, M, hm, hM, hm0, hmM⟩ := hdrops d hd
          obtain ⟨⟨hr0, hr1⟩, _⟩ := hrand t ht
          obtain ⟨hlow, hhigh⟩ := rollQuantity_bounds d m M hm hM hmM t.2.1 hr0 hr1
          refine ⟨d, hd, ?_, ?_, ?_⟩
          · rw [herd, hrdeq]
          · rw [herd, hrdeq]; exact hlow
          · rw [herd, hrdeq]; exact hhigh

/-- Berry-bush config: health 1, one guaranteed drop of 1–3 wood. -/
def cfgC9 : ResourceConfig :=
  ⟨.bush, "Berry Bush", 1, [⟨"wood", "Wood", 1, 3, 1⟩], none, 1, 5, 60⟩

/-- The bush resource instance. -/
def resC9 : Resource := Resource.create "bush1" cfgC9

/-- Empty two-slot gathering inventory. -/
def invC9 : Inventory := Inventory.create "gInv" 2 10

/-- Oracle draws: chance 1/2, quantity rolls 1/2 and 3/4. -/
def randC9 : List (ℚ × ℚ × ℚ) := [(1/2, 1/2, 3/4)]

/-- The item the gather creates: 2 wood. -/
def woodDropItem : Item :=
  ⟨"wood", "Wood", "Gathered Wood", .material, .common, 20, 1/2, "", "", false,
    none, none, 2⟩

/-- The full gather outcome. -/
def outC9 : Character × Inventory × Resource × GatherResult :=
  (demoChar.useStamina 5,
    ⟨"gInv", 2, 10, [some woodDropItem, none]⟩,
    ⟨"bush1", cfgC9, 0, true, 60⟩,
    ⟨true, [("Wood", 2)], true⟩)

lemma rollQuantity_c9_min :
    Resource.rollQuantity ⟨"wood", "Wood", 1, 3, 1⟩ (1/2) = 2 := by
  unfold Resource.rollQuantity
  have : ⌊(1 : ℚ) + 1/2 * (3 - 1 + 1)⌋ = 2 := by
    rw [Int.floor_eq_iff]
    norm_num
  dsimp only
  rw [this]
  norm_num

lemma rollQuantity_c9_max :
    Resource.rollQuantity ⟨"wood", "Wood", 1, 3, 1⟩ (3/4) = 3 := by
  unfold Resource.rollQuantity
  have : ⌊(1 : ℚ) + 3/4 * (3 - 1 + 1)⌋ = 3 := by
    rw [Int.floor_eq_iff]
    norm_num
  dsimp only
  rw [this]
  norm_num

lemma gathered_wood_append : ("Gathered " : String) ++ "Wood" = "Gathered Wood" := rfl

lemma wood_ne_berries : ("wood" : String) ≠ "berries" := by decide

lemma material_ne_food : ItemType.material ≠ ItemType.food := by decide

lemma gather_c9_execute :
    GatherResourceUseCase.execute demoChar invC9 resC9 none randC9 = .ok outC9 := by
  norm_num [GatherResourceUseCase.execute, GatherResourceUseCase.collectDrops,
    GatherResourceUseCase.createItemFromDrop, Resource.hit, Resource.rollDrops,
    Resource.create, Character.canUseStamina, Character.useStamina,
    Character.updateStats, Stats.withStamina, Stats.isAliveB, demoChar,
    demoStats, Character.create, invC9, resC9, cfgC9, randC9, outC9,
    woodDropItem, Item.create, Inventory.create, Inventory.addItem,
    Inventory.addItemGo, Inventory.hasSpaceFor, Inventory.findStackableSlot,
    Inventory.getEmptySlotIndex, Inventory.placeInEmpty,
    Inventory.getCurrentWeight, Inventory.getAllItems, Item.canStackWith,
    Item.getTotalWeight, List.findIdx?_cons, List.findIdx?_nil, List.replicate,
    List.zip, List.zipWith, List.filterMap_cons, List.sum_cons, List.sum_nil,
    rollQuantity_c9_min, rollQuantity_c9_max, exceptBind_ok, min_def, max_def,
    gathered_wood_append, wood_ne_berries, material_ne_food]

/-- Witness for C9: the gathered "Wood" entry carries quantity 2, the
rolled minimum, inside the configured range [1, 3]. -/
theorem gather_grants_rolled_min_within_range_witness :
    (∃ rd ∈ (resC9.hit none randC9).2, (("Wood", (2 : ℚ))) = (rd.itemName, rd.minQuantity)) ∧
    (∃ d ∈ resC9.config.drops,
      ("Wood", (2 : ℚ)).1 = d.itemName ∧ d.minQuantity ≤ ("Wood", (2 : ℚ)).2 ∧
      ("Wood", (2 : ℚ)).2 ≤ d.maxQuantity) :=
  gather_grants_rolled_min_within_range demoChar invC9 resC9 none randC9
    (by
      intro d hd
      simp only [resC9, Resource.create, cfgC9, List.mem_singleton] at hd
      subst hd
      exact ⟨1, 3, by norm_num, by norm_num, by norm_num, by norm_num⟩)
    (by
      intro t ht
      simp only [randC9, List.mem_singleton] at ht
      subst ht
      norm_num)
    outC9 gather_c9_execute ("Wood", 2)
    (by simp [outC9])

lemma Item.addToStack_valid (i : Item) (a : ℚ) (hv : i.QuantityValid)
    (ha : 0 ≤ a) : (i.addToStack a).QuantityValid :=
  ⟨le_min (add_nonneg hv.1 ha) (le_trans hv.1 hv.2), min_le_right _ _⟩

lemma Item.removeFromStack_valid (i : Item) (a : ℚ) (hv : i.QuantityValid)
    (ha : 0 ≤ a) : (i.removeFromStack a).QuantityValid :=
  ⟨le_max_right _ _, max_le (le_trans (sub_le_self _ ha) hv.2) (le_trans hv.1 hv.2)⟩

/-- `split(amount)`: null for a degenerate amount; otherwise the receiver
keeps `quantity − amount` and a freshly created item carries `amount`. -/
def Item.split (i : Item) (amount : ℚ) :
    Except String (Option (Item × Item)) :=
  if amount ≤ 0 ∨ i.quantity ≤ amount then .ok none
  else do
    let splitItem ← Item.create (i.id ++ "_split") i.name i.description i.type
      i.rarity i.maxStack i.weight i.modelPath i.iconPath i.isConsumable
      i.effects i.craftingMaterials amount
    .ok (some ({ i with quantity := i.quantity - amount }, splitItem))

/-- Item values reachable from `create` by the quantity-changing
operations with validly signed amounts. -/
inductive Item.Reachable : Item → Prop where
  | create (idv name desc : String) (t : ItemType) (r : ItemRarity)
      (maxStack w : ℚ) (mp ip : String) (ic : Bool) (eff : Option ItemEffect)
      (cm : Option (List (String × ℚ))) (q : ℚ) (i : Item)
      (h : Item.create idv name desc t r maxStack w mp ip ic eff cm q = .ok i) :
      Reachable i
  | addToStack {i : Item} (a : ℚ) (ha : 0 ≤ a) :
      Reachable i → Reachable (i.addToStack a)
  | removeFromStack {i : Item} (a : ℚ) (ha : 0 ≤ a) :
      Reachable i → Reachable (i.removeFromStack a)
  | splitOriginal {i : Item} (a : ℚ) {orig spl : Item}
      (h : i.split a = .ok (some (orig, spl))) : Reachable i → Reachable orig
  | splitNew {i : Item} (a : ℚ) {orig spl : Item}
      (h : i.split a = .ok (some (orig, spl))) : Reachable i → Reachable spl

lemma Item.reachable_quantity_valid {i : Item} (h : Item.Reachable i) : i.QuantityValid := by
  induction h with
  | create idv name desc t r maxStack w mp ip ic eff cm q i hcr =>
    exact Item.create_ok_valid _ _ _ _ _ _ _ _ _ _ _ _ _ _ hcr
  | addToStack a ha _ ih => exact Item.addToStack_valid _ a ih ha
  | removeFromStack a ha _ ih => exact Item.removeFromStack_valid _ a ih ha
  | splitOriginal a hsp _ ih =>
    unfold Item.split at hsp
    split at hsp
    · simp at hsp
    · next hcond =>
      push_neg at hcond
      cases hcr : Item.create _ _ _ _ _ _ _ _ _ _ _ _ _ with
      | error e => rw [hcr] at hsp; simp [exceptBind_error] at hsp
      | ok spl2 =>
        rw [hcr] at hsp
        simp only [exceptBind_ok, Except.ok.injEq, Option.some.injEq,
          Prod.mk.injEq] at hsp
        rw [← hsp.1]
        exact ⟨by have := hcond.2; dsimp only; linarith [hcond.1],
          by dsimp only; linarith [ih.2, hcond.1]⟩
  | splitNew a hsp _ ih =>
    unfold Item.split at hsp
    split at hsp
    · simp at hsp
    · cases hcr : Item.create _ _ _ _ _ _ _ _ _ _ _ _ _ with
      | error e => rw [hcr] at hsp; simp [exceptBind_error] at hsp
      | ok spl2 =>
        have hv := Item.create_ok_valid _ _ _ _ _ _ _ _ _ _ _ _ _ _ hcr
        rw [hcr] at hsp
        simp only [exceptBind_ok, Except.ok.injEq, Option.some.injEq,
          Prod.mk.injEq] at hsp
        rw [← hsp.2]
        exact hv

lemma Item.item_json_round_trip (i : Item) (h : i.QuantityValid) :
    Item.fromJSON i.toJSON = .ok i := by
  unfold Item.fromJSON Item.toJSON Item.create
  rw [if_neg]
  simp only [not_or, not_lt]
  exact ⟨h.1, h.2⟩

lemma Character.character_json_round_trip (c : Character) (h : c.stats.Valid) :
    Character.fromJSON c.toJSON = .ok c := by
  unfold Character.fromJSON Character.toJSON Stats.create
  simp only [Option.getD_some]
  rw [if_pos h]
  rfl

/-- Character values reachable from `create` by the character's own
mutation operations. -/
inductive Character.Reachable : Character → Prop where
  | create (idv cls nm : String) (s : Stats) (p : Position) (hs : s.Valid) :
      Reachable (Character.create idv cls nm s p)
  | takeDamage {c : Character} (a : ℚ) : Reachable c → Reachable (c.takeDamage a)
  | heal {c : Character} (a : ℚ) : Reachable c → Reachable (c.heal a)
  | eat {c : Character} (a : ℚ) : Reachable c → Reachable (c.eat a)
  | drink {c : Character} (a : ℚ) : Reachable c → Reachable (c.drink a)
  | useStamina {c : Character} (a : ℚ) : Reachable c → Reachable (c.useStamina a)
  | regenStamina {c : Character} (a : ℚ) : Reachable c → Reachable (c.regenStamina a)
  | updateTemperature {c : Character} (t : ℚ) :
      Reachable c → Reachable (c.updateTemperature t)
  | moveTo {c : Character} (p : Position) : Reachable c → Reachable (c.moveTo p)
  | updateStats {c : Character} (s : Stats) (hs : s.Valid) :
      Reachable c → Reachable (c.updateStats s)

lemma Character.reachable_stats_valid {c : Character} (h : Character.Reachable c) :
    c.stats.Valid := by
  induction h with
  | create idv cls nm s p hs => exact hs
  | takeDamage a _ ih => exact Stats.withHealth_valid _ ih _
  | heal a _ ih => exact Stats.withHealth_valid _ ih _
  | eat a _ ih => exact Stats.withHunger_valid _ ih _
  | drink a _ ih => exact Stats.withThirst_valid _ ih _
  | useStamina a _ ih => exact Stats.withStamina_valid _ ih _
  | regenStamina a _ ih => exact Stats.withStamina_valid _ ih _
  | updateTemperature t _ ih => exact Stats.withTemperature_valid _ ih _
  | moveTo p _ ih => exact ih
  | updateStats s hs _ _ => exact hs

/-- Inventory well-formedness: the slot table has exactly `maxSlots`
entries and every stored item satisfies the constructor's quantity
bound. -/
def Inventory.WF (inv : Inventory) : Prop :=
  inv.slots.length = inv.maxSlots ∧
  ∀ o ∈ inv.slots, ∀ it : Item, o = some it → it.QuantityValid

lemma Inventory.WF.set_some {inv : Inventory} (h : inv.WF) (j : ℕ) {it : Item}
    (hit : it.QuantityValid) :
    ({ inv with slots := inv.slots.set j (some it) } : Inventory).WF := by
  refine ⟨by simp [List.length_set, h.1], ?_⟩
  intro o ho it2 hoeq
  rcases List.mem_or_eq_of_mem_set ho with hmem | heq
  · exact h.2 o hmem it2 hoeq
  · rw [heq] at hoeq
    cases hoeq
    exact hit

lemma Inventory.WF.set_none {inv : Inventory} (h : inv.WF) (j : ℕ) :
    ({ inv with slots := inv.slots.set j none } : Inventory).WF := by
  refine ⟨by simp [List.length_set, h.1], ?_⟩
  intro o ho it2 hoeq
  rcases List.mem_or_eq_of_mem_set ho with hmem | heq
  · exact h.2 o hmem it2 hoeq
  · rw [heq] at hoeq
    cases hoeq

lemma Inventory.getD_some_mem {inv : Inventory} {i : ℕ} {it : Item}
    (hget : inv.slots.getD i none = some it) : some it ∈ inv.slots := by
  rw [List.getD_eq_getElem?_getD] at hget
  cases hg : inv.slots[i]? with
  | none => rw [hg] at hget; simp at hget
  | some o =>
    rw [hg] at hget
    simp only [Option.getD_some] at hget
    subst hget
    exact List.getElem?_mem hg

lemma Inventory.placeInEmpty_WF {inv : Inventory} (h : inv.WF) {item : Item}
    (hit : item.QuantityValid) : (inv.placeInEmpty item).1.WF := by
  unfold Inventory.placeInEmpty
  cases hemp : inv.getEmptySlotIndex with
  | none => exact h
  | some j => exact h.set_some j hit

lemma Item.canStackWith_not_full {a b : Item} (h : a.canStackWith b = true) :
    a.quantity < a.maxStack := by
  unfold Item.canStackWith Item.isStackFull at h
  simp only [Bool.and_eq_true, Bool.not_eq_true', decide_eq_false_iff_not,
    not_le] at h
  exact h.2

lemma Inventory.addItemGo_WF :
    ∀ (fuel : ℕ) (inv : Inventory) (item : Item), inv.WF →
      item.QuantityValid → (Inventory.addItemGo fuel inv item).1.WF := by
  intro fuel
  induction fuel with
  | zero => intro inv item h _; exact h
  | succ n ih =>
    intro inv item h hq
    rw [Inventory.addItemGo]
    by_cases hsp : inv.hasSpaceFor item = true
    · rw [if_pos hsp]
      cases hfind : inv.findStackableSlot item with
      | none => exact inv.placeInEmpty_WF h hq
      | some i =>
        dsimp only
        cases hget : inv.slots.getD i none with
        | none => exact inv.placeInEmpty_WF h hq
        | some existing =>
          dsimp only
          by_cases hstk : existing.canStackWith item = true
          · rw [if_pos hstk]
            have hexv : existing.QuantityValid :=
              h.2 _ (Inventory.getD_some_mem hget) existing rfl
            have hamt : 0 ≤ min item.quantity (existing.maxStack - existing.quantity) :=
              le_min hq.1 (by linarith [Item.canStackWith_not_full hstk])
            have h2 := h.set_some i
              (Item.addToStack_valid existing _ hexv hamt)
            by_cases hrem : 0 < item.quantity - min item.quantity (existing.maxStack - existing.quantity)
            · rw [if_pos hrem]
              exact ih _ _ h2 (Item.removeFromStack_valid item _ hq hamt)
            · rw [if_neg hrem]
              exact h2
          · rw [if_neg hstk]
            exact inv.placeInEmpty_WF h hq
    · rw [if_neg hsp]
      exact h

lemma Inventory.addItem_WF {inv : Inventory} {item : Item} (h : inv.WF)
    (hq : item.QuantityValid) : (inv.addItem item).1.WF :=
  Inventory.addItemGo_WF _ inv item h hq

lemma Inventory.removeItemAt_WF {inv : Inventory} {i : ℕ} {amt : ℚ}
    {v2 : Inventory} {r : Option Item} (h : inv.WF)
    (hrm : inv.removeItemAt i amt = .ok (v2, r)) : v2.WF := by
  unfold Inventory.removeItemAt at hrm
  split at hrm
  · cases hget : inv.slots.getD i none with
    | none =>
      rw [hget] at hrm
      cases hrm
      exact h
    | some item =>
      rw [hget] at hrm
      dsimp only at hrm
      have hmem := Inventory.getD_some_mem hget
      have hval : item.QuantityValid := h.2 _ hmem item rfl
      by_cases hle : item.quantity ≤ amt
      · rw [if_pos hle] at hrm
        cases hrm
        exact h.set_none i
      · rw [if_neg hle] at hrm
        unfold Item.create at hrm
        split at hrm
        · simp [exceptBind_error] at hrm
        · next hguard =>
          push_neg at hguard
          simp only [exceptBind_ok, Except.ok.injEq, Prod.mk.injEq] at hrm
          rw [← hrm.1]
          exact h.set_some i
            (Item.removeFromStack_valid item amt hval hguard.1)
  · cases hrm

lemma Inventory.moveItem_WF {inv : Inventory} {i j : ℕ} {v2 : Inventory}
    {b : Bool} (h : inv.WF) (hmv : inv.moveItem i j = .ok (v2, b)) : v2.WF := by
  unfold Inventory.moveItem at hmv
  split at hmv
  · cases hfrom : inv.slots.getD i none with
    | none =>
      rw [hfrom] at hmv
      cases hmv
      exact h
    | some fromItem =>
      rw [hfrom] at hmv
      dsimp only at hmv
      have hfv : fromItem.QuantityValid :=
        h.2 _ (Inventory.getD_some_mem hfrom) fromItem rfl
      cases hto : inv.slots.getD j none with
      | none =>
        rw [hto] at hmv
        cases hmv
        exact (Inventory.WF.set_some h j hfv).set_none i
      | some toItem =>
        rw [hto] at hmv
        dsimp only at hmv
        have htv : toItem.QuantityValid :=
          h.2 _ (Inventory.getD_some_mem hto) toItem rfl
        by_cases hstk : fromItem.canStackWith toItem = true
        · rw [if_pos hstk] at hmv
          have hamt : 0 ≤ min fromItem.quantity (toItem.maxStack - toItem.quantity) :=
            le_min hfv.1 (by linarith [htv.2])
          cases hmv
          by_cases hz : (fromItem.removeFromStack
              (min fromItem.quantity (toItem.maxStack - toItem.quantity))).quantity = 0
          · rw [if_pos hz]
            exact (Inventory.WF.set_some h j
              (Item.addToStack_valid toItem _ htv hamt)).set_none i
          · rw [if_neg hz]
            exact (Inventory.WF.set_some h j
              (Item.addToStack_valid toItem _ htv hamt)).set_some i
              (Item.removeFromStack_valid fromItem _ hfv hamt)
        · rw [if_neg hstk] at hmv
          cases hmv
          exact (Inventory.WF.set_some h i htv).set_some j hfv
  · cases hmv

/-- Inventory values reachable from `create` by the slot mutations. -/
inductive Inventory.Reachable : Inventory → Prop where
  | create (idv : String) (n : ℕ) (w : ℚ) :
      Reachable (Inventory.create idv n w)
  | addItem {v : Inventory} (item : Item) (hq : item.QuantityValid) :
      Reachable v → Reachable (v.addItem item).1
  | removeItemAt {v : Inventory} (i : ℕ) (amt : ℚ) {v2 : Inventory}
      {r : Option Item} (hrm : v.removeItemAt i amt = .ok (v2, r)) :
      Reachable v → Reachable v2
  | moveItem {v : Inventory} (i j : ℕ) {v2 : Inventory} {b : Bool}
      (hmv : v.moveItem i j = .ok (v2, b)) : Reachable v → Reachable v2

lemma Inventory.reachable_WF {v : Inventory} (h : Inventory.Reachable v) :
    v.WF := by
  induction h with
  | create idv n w =>
    refine ⟨by simp [Inventory.create], ?_⟩
    intro o ho it hoeq
    rw [List.eq_of_mem_replicate ho] at hoeq
    cases hoeq
  | addItem item hq _ ih => exact Inventory.addItem_WF ih hq
  | removeItemAt i amt hrm _ ih => exact Inventory.removeItemAt_WF ih hrm
  | moveItem i j hmv _ ih => exact Inventory.moveItem_WF ih hmv

lemma packJson_mapM :
    ∀ (l : List (Option Item)) (k : ℕ),
      (∀ o ∈ l, ∀ it : Item, o = some it → it.QuantityValid) →
      ((List.enumFrom k l).filterMap fun p => p.2.map fun it => (p.1, it.toJSON)).mapM
        (fun p => do
          let it ← Item.fromJSON p.2
          pure (p.1, it)) =
      .ok ((List.enumFrom k l).filterMap fun p => p.2.map fun it => (p.1, it)) := by
  intro l
  induction l with
  | nil => intro k _; rfl
  | cons o tl ih =>
    intro k hWF
    have htl : ∀ o ∈ tl, ∀ it : Item, o = some it → it.QuantityValid :=
      fun o ho => hWF o (List.mem_cons_of_mem _ ho)
    rw [List.enumFrom_cons]
    cases o with
    | none =>
      simp only [List.filterMap_cons, Option.map_none']
      exact ih (k + 1) htl
    | some it =>
      simp only [List.filterMap_cons, Option.map_some']
      rw [List.mapM_cons]
      rw [Item.item_json_round_trip it (hWF _ (List.mem_cons_self _ _) it rfl)]
      simp only [exceptBind_ok]
      rw [ih (k + 1) htl]
      simp only [exceptBind_ok]
      rfl

lemma packed_keys_ge (tl : List (Option Item)) (k : ℕ) (p : ℕ × Item)
    (hp : p ∈ (List.enumFrom k tl).filterMap fun q => q.2.map fun it => (q.1, it)) :
    k ≤ p.1 := by
  rw [List.mem_filterMap] at hp
  obtain ⟨q, hq, hmap⟩ := hp
  cases hq2 : q.2 with
  | none => rw [hq2] at hmap; simp at hmap
  | some it =>
    rw [hq2] at hmap
    simp only [Option.map_some', Option.some.injEq] at hmap
    have hpair : (q.1, q.2) ∈ List.enumFrom k tl := hq
    rw [hq2] at hpair
    have := (List.mem_enumFrom hpair).1
    rw [← hmap]
    exact this

lemma mapGet_packed :
    ∀ (l : List (Option Item)) (k i : ℕ),
      Inventory.mapGet
        ((List.enumFrom k l).filterMap fun p => p.2.map fun it => (p.1, it))
        (k + i) = l.getD i none := by
  intro l
  induction l with
  | nil => intro k i; rfl
  | cons o tl ih =>
    intro k i
    rw [List.enumFrom_cons]
    cases o with
    | some it =>
      simp only [List.filterMap_cons, Option.map_some']
      cases i with
      | zero =>
        simp [Inventory.mapGet, List.find?_cons_of_pos]
      | succ m =>
        have hne : ((k, it).1 == k + (m + 1)) = false := by
          simp only [beq_eq_false_iff_ne, ne_eq]
          omega
        unfold Inventory.mapGet
        rw [List.find?_cons_of_neg _ (by simp [hne])]
        rw [show k + (m + 1) = (k + 1) + m by omega]
        exact ih (k + 1) m
    | none =>
      simp only [List.filterMap_cons, Option.map_none']
      cases i with
      | zero =>
        unfold Inventory.mapGet
        rw [List.find?_eq_none.mpr]
        · rfl
        · intro p hp
          have := packed_keys_ge tl (k + 1) p hp
          simp only [beq_iff_eq]
          omega
      | succ m =>
        rw [show k + (m + 1) = (k + 1) + m by omega]
        exact ih (k + 1) m

lemma mkFromMap_slots (l : List (Option Item)) :
    (List.range l.length).map
      (fun i => Inventory.mapGet
        ((List.enumFrom 0 l).filterMap fun p => p.2.map fun it => (p.1, it)) i) = l := by
  apply List.ext_getElem?
  intro n
  rw [List.getElem?_map]
  by_cases hn : n < l.length
  · rw [List.getElem?_range hn]
    simp only [Option.map_some']
    have hm := mapGet_packed l 0 n
    rw [zero_add] at hm
    rw [hm, List.getD_eq_getElem?_getD, List.getElem?_eq_getElem hn]
    rfl
  · have h1 : (List.range l.length)[n]? = none := by
      rw [List.getElem?_eq_none]
      simpa using le_of_not_lt hn
    rw [h1, List.getElem?_eq_none (le_of_not_lt hn)]
    rfl

lemma Inventory.inventory_json_round_trip (inv : Inventory) (h : inv.WF) :
    Inventory.fromJSON inv.toJSON = .ok inv := by
  obtain ⟨idv, ms, mw, slots⟩ := inv
  obtain ⟨hlen, hval⟩ := h
  simp only at hlen
  unfold Inventory.fromJSON Inventory.toJSON
  simp only
  rw [List.enum_eq_enumFrom, packJson_mapM slots 0 hval]
  simp only [exceptBind_ok]
  unfold Inventory.mkFromMap
  rw [← hlen, mkFromMap_slots slots]
  rfl

/-- C7: for Character, Item and Inventory values reachable by valid
mutations from a freshly created instance, `fromJSON ∘ toJSON` rebuilds
the value exactly (every observable field, with empty inventory slots
omitted on the wire but restored as empty). -/
theorem serialization_round_trip :
    (∀ c : Character, Character.Reachable c →
      Character.fromJSON c.toJSON = .ok c) ∧
    (∀ i : Item, Item.Reachable i → Item.fromJSON i.toJSON = .ok i) ∧
    (∀ v : Inventory, Inventory.Reachable v →
      Inventory.fromJSON v.toJSON = .ok v) :=
  ⟨fun c hc => Character.character_json_round_trip c (Character.reachable_stats_valid hc),
   fun i hi => Item.item_json_round_trip i (Item.reachable_quantity_valid hi),
   fun v hv => Inventory.inventory_json_round_trip v (Inventory.reachable_WF hv)⟩

/-- Witness for C7 at concrete reachable values. -/
theorem serialization_round_trip_witness :
    Character.fromJSON demoChar.toJSON = .ok demoChar ∧
    Item.fromJSON itemC8.toJSON = .ok itemC8 ∧
    Inventory.fromJSON (Inventory.create "rtInv" 2 10).toJSON =
      .ok (Inventory.create "rtInv" 2 10) :=
  ⟨serialization_round_trip.1 demoChar
      (.create "c1" "survivor" "Demo" demoStats Position.zero (by decide)),
   serialization_round_trip.2.1 itemC8
      (.create "apple" "Apple" "" .food .common 5 1 "" "" false none none 1
        itemC8 rfl),
   serialization_round_trip.2.2 _ (.create "rtInv" 2 10)⟩
